import Mathlib

/-!
Verification of the Merged-IP-Data merge engine.

This file gives a shallow embedding of the Go sources of the repository
(internal/merger/merger.go, internal/merger/record.go,
internal/reader/openproxydb.go, internal/reader/geowhois.go,
internal/reader/qqwry.go and the worker-pool file defining
workerContext) and proves or refutes the frozen claims about them.

Modelling conventions:
* Go `map[string]string` values are association lists with unique keys;
  Go map assignment `m[k] = v` is `mapSet`, lookup is `List.lookup`.
* `uint32` / `uint16` counters and ids are `Nat` (they are only copied
  and compared with 0, never overflowed by the modelled code).
* `float64` / `float32` coordinates are `Rat`: the modelled code only
  copies them and compares them with 0, so any type with decidable
  equality and a zero is faithful; no floating-point arithmetic occurs.
* MMDB point lookups on auxiliary sources are inputs of type
  `Option R`: `none` models a lookup error (`err != nil`), and a missed
  lookup is `some` of a zero record, exactly the behaviour of the
  maxminddb reader used by the code.
* `interner.Intern` returns a string equal to its argument (it only
  canonicalises the allocation), so it is modelled by `intern = id`.
-/

set_option maxRecDepth 4096

namespace MergedIP

/-- Go `map[string]string`: an association list with unique keys. -/
abbrev NamesMap := List (String × String)

/-- Go map assignment `m[k] = v`: replace the binding of `k` if present,
otherwise add it. -/
def mapSet (m : NamesMap) (k v : String) : NamesMap :=
  match m with
  | [] => [(k, v)]
  | kv :: rest => if kv.1 == k then (k, v) :: rest else kv :: mapSet rest k v

/-- `interner.Intern` (internal/interner): returns the canonical copy of
the string, which is value-equal to the argument; modelled as identity. -/
def intern (s : String) : String := s

/-! ## Unified record structures (internal/merger/record.go) -/

/-- CityRecord (record.go). Field defaults are the Go zero values, so
`{}` is the record produced by `Reset`. -/
structure CityRecord where
  GeonameID : Nat := 0
  Names : NamesMap := []
deriving Repr, DecidableEq

/-- ContinentRecord (record.go). -/
structure ContinentRecord where
  Code : String := ""
  GeonameID : Nat := 0
  Names : NamesMap := []
deriving Repr, DecidableEq

/-- CountryRecord (record.go); also used for registered_country. -/
structure CountryRecord where
  GeonameID : Nat := 0
  ISOCode : String := ""
  Names : NamesMap := []
deriving Repr, DecidableEq

/-- LocationRecord (record.go), including the bookkeeping flag
`HasCoordinates` that distinguishes an unset location from (0,0). -/
structure LocationRecord where
  AccuracyRadius : Nat := 0
  Latitude : Rat := 0
  Longitude : Rat := 0
  MetroCode : Nat := 0
  TimeZone : String := ""
  HasCoordinates : Bool := false
deriving Repr, DecidableEq

/-- PostalRecord (record.go). -/
structure PostalRecord where
  Code : String := ""
deriving Repr, DecidableEq

/-- SubdivisionRecord (record.go). -/
structure SubdivisionRecord where
  GeonameID : Nat := 0
  ISOCode : String := ""
  Names : NamesMap := []
deriving Repr, DecidableEq

/-- ASNRecord (record.go). -/
structure ASNRecord where
  Number : Nat := 0
  Organization : String := ""
  Domain : String := ""
deriving Repr, DecidableEq

/-- ProxyRecord (record.go). -/
structure ProxyRecord where
  IsProxy : Bool := false
  IsVPN : Bool := false
  IsTor : Bool := false
  IsHosting : Bool := false
  IsCDN : Bool := false
  IsSchool : Bool := false
  IsAnonymous : Bool := false
deriving Repr, DecidableEq

/-- MergedRecord (record.go): the unified output record. `{}` is the
record after `Reset`. -/
structure MergedRecord where
  City : CityRecord := {}
  Continent : ContinentRecord := {}
  Country : CountryRecord := {}
  Location : LocationRecord := {}
  Postal : PostalRecord := {}
  RegisteredCountry : CountryRecord := {}
  Subdivisions : List SubdivisionRecord := []
  ASN : ASNRecord := {}
  Proxy : ProxyRecord := {}
deriving Repr, DecidableEq

/-- MergedRecord.IsEmpty (record.go lines 496-503). -/
def MergedRecord.IsEmpty (r : MergedRecord) : Bool :=
  r.Country.ISOCode == "" &&
  r.City.GeonameID == 0 &&
  r.City.Names.length == 0 &&
  r.ASN.Number == 0 &&
  !r.Location.HasCoordinates

/-- MergedRecord.HasGeoData (record.go). -/
def MergedRecord.HasGeoData (r : MergedRecord) : Bool :=
  r.Country.ISOCode != "" || r.City.GeonameID != 0 || r.City.Names.length > 0

/-! ## Source record kinds (internal/reader) -/

/-- The anonymous Location struct inside GeoLite2CityRecord
(reader.go): no HasCoordinates flag in the source record. -/
structure GeoCityLocation where
  AccuracyRadius : Nat := 0
  Latitude : Rat := 0
  Longitude : Rat := 0
  MetroCode : Nat := 0
  TimeZone : String := ""
deriving Repr, DecidableEq

/-- GeoLite2CityRecord (reader.go): the decoded GeoLite2-City record. -/
structure GeoLite2CityRecord where
  City : CityRecord := {}
  Continent : ContinentRecord := {}
  Country : CountryRecord := {}
  Location : GeoCityLocation := {}
  Postal : PostalRecord := {}
  RegisteredCountry : CountryRecord := {}
  Subdivisions : List SubdivisionRecord := []
deriving Repr, DecidableEq

/-- GeoLite2CityRecord.HasGeoData (reader.go). -/
def GeoLite2CityRecord.HasGeoData (r : GeoLite2CityRecord) : Bool :=
  r.Country.ISOCode != "" || r.City.GeonameID != 0

/-- GeoLite2CityRecord.HasLocationData (reader.go). -/
def GeoLite2CityRecord.HasLocationData (r : GeoLite2CityRecord) : Bool :=
  r.Location.AccuracyRadius != 0 || decide (r.Location.Latitude ≠ 0) ||
  decide (r.Location.Longitude ≠ 0) || r.Location.TimeZone != ""

/-- DBIPCityRecord (DB-IP reader file). -/
structure DBIPCityRecord where
  City : String := ""
  CountryCode : String := ""
  Latitude : Rat := 0
  Longitude : Rat := 0
  Postcode : String := ""
  State1 : String := ""
  State2 : String := ""
  Timezone : String := ""
deriving Repr, DecidableEq

/-- DBIPCityRecord.HasGeoData. -/
def DBIPCityRecord.HasGeoData (r : DBIPCityRecord) : Bool :=
  r.CountryCode != "" || r.City != ""

/-- DBIPCityRecord.HasLocationData. -/
def DBIPCityRecord.HasLocationData (r : DBIPCityRecord) : Bool :=
  decide (r.Latitude ≠ 0) || decide (r.Longitude ≠ 0) || r.Timezone != ""

/-- IPinfoLiteRecord (geowhois.go): ASN field format is the string
form, e.g. AS12345. -/
structure IPinfoLiteRecord where
  ASDomain : String := ""
  ASName : String := ""
  ASN : String := ""
  Continent : String := ""
  ContinentCode : String := ""
  Country : String := ""
  CountryCode : String := ""
deriving Repr, DecidableEq

/-- IPinfoLiteRecord.HasASN (geowhois.go line 125-127): nonempty ASN
STRING, not nonzero parsed number. -/
def IPinfoLiteRecord.HasASN (r : IPinfoLiteRecord) : Bool :=
  r.ASN != ""

/-- strings.TrimPrefix applied with the literal AS, character-wise
over the string's characters. -/
def trimAS (s : String) : String :=
  if s.data.take 2 == "AS".data then String.mk (s.data.drop 2) else s

/-- strconv.ParseUint(s, 10, 32): digits only, nonempty, value below
2^32; on any error the Go caller falls back to 0. -/
def parseUint32 (s : String) : Option Nat :=
  if s.data.isEmpty then none
  else if s.data.all (fun c => c.isDigit) then
    let n := s.data.foldl (fun acc c => acc * 10 + (c.toNat - 48)) 0
    if n < 2 ^ 32 then some n else none
  else none

/-- IPinfoLiteRecord.GetASNumber (geowhois.go lines 135-145). -/
def IPinfoLiteRecord.GetASNumber (r : IPinfoLiteRecord) : Nat :=
  if r.ASN == "" then 0
  else
    match parseUint32 (trimAS r.ASN) with
    | some n => n
    | none => 0

/-- GeoLite2ASNRecord. -/
structure GeoLite2ASNRecord where
  AutonomousSystemNumber : Nat := 0
  AutonomousSystemOrganization : String := ""
deriving Repr, DecidableEq

/-- GeoLite2ASNRecord.HasASN: nonzero number. -/
def GeoLite2ASNRecord.HasASN (r : GeoLite2ASNRecord) : Bool :=
  r.AutonomousSystemNumber != 0

/-- RouteViewsASNRecord. -/
structure RouteViewsASNRecord where
  AutonomousSystemNumber : Nat := 0
  AutonomousSystemOrganization : String := ""
deriving Repr, DecidableEq

/-- RouteViewsASNRecord.HasASN: nonzero number. -/
def RouteViewsASNRecord.HasASN (r : RouteViewsASNRecord) : Bool :=
  r.AutonomousSystemNumber != 0

/-- GeoWhoisCountryRecord (geowhois.go). -/
structure GeoWhoisCountryRecord where
  CountryCode : String := ""
deriving Repr, DecidableEq

/-- GeoWhoisCountryRecord.HasCountry. -/
def GeoWhoisCountryRecord.HasCountry (r : GeoWhoisCountryRecord) : Bool :=
  r.CountryCode != ""

/-- QQWryRecord (qqwry.go). -/
structure QQWryRecord where
  CountryName : String := ""
  RegionName : String := ""
  CityName : String := ""
  DistrictName : String := ""
  ISPDomain : String := ""
  CountryCode : String := ""
  ContinentCode : String := ""
deriving Repr, DecidableEq

/-- QQWryRecord.HasGeoData (qqwry.go). -/
def QQWryRecord.HasGeoData (r : QQWryRecord) : Bool :=
  r.CountryName != "" || r.RegionName != "" || r.CityName != ""

/-- QQWryRecord.HasCityData (qqwry.go). -/
def QQWryRecord.HasCityData (r : QQWryRecord) : Bool :=
  r.CityName != ""

/-- QQWryRecord.HasRegionData (qqwry.go). -/
def QQWryRecord.HasRegionData (r : QQWryRecord) : Bool :=
  r.RegionName != ""

/-- QQWryRecord.IsChina (qqwry.go). -/
def QQWryRecord.IsChina (r : QQWryRecord) : Bool :=
  r.CountryCode == "CN" || r.CountryName == "中国"

/-- OpenproxyDBRecord (openproxydb.go). -/
structure OpenproxyDBRecord where
  IsProxy : Bool := false
  IsVPN : Bool := false
  IsTor : Bool := false
  IsHosting : Bool := false
  IsCDN : Bool := false
  IsSchool : Bool := false
  IsAnonymous : Bool := false
deriving Repr, DecidableEq

/-- OpenproxyDBRecord.HasData (openproxydb.go lines 239-241). -/
def OpenproxyDBRecord.HasData (r : OpenproxyDBRecord) : Bool :=
  r.IsProxy || r.IsVPN || r.IsTor || r.IsHosting || r.IsCDN || r.IsSchool

/-! ## Merge planner (internal/merger/merger.go)

Each auxiliary point lookup is an input of type `Option R`; `none`
models `err != nil` from `LookupTo`, and a miss is `some {}` (the
maxminddb reader leaves the record zero-valued and returns no error on
a miss, so the code's `err == nil && rec.HasX()` guards see a zero
record). -/

/-- Merger.enrichWithASNData (merger.go lines 508-542): priority chain
IPinfo Lite, then GeoLite2-ASN, then RouteViews. -/
def enrichWithASNData (ipinfo : Option IPinfoLiteRecord)
    (geoASN : Option GeoLite2ASNRecord) (rv : Option RouteViewsASNRecord)
    (record : MergedRecord) : MergedRecord :=
  match ipinfo with
  | some r =>
    if r.HasASN then
      { record with ASN := ⟨r.GetASNumber, r.ASName, r.ASDomain⟩ }
    else enrichSecondary record
  | none => enrichSecondary record
where
  enrichSecondary (record : MergedRecord) : MergedRecord :=
    match geoASN with
    | some g =>
      if g.HasASN then
        { record with
            ASN := ⟨g.AutonomousSystemNumber, g.AutonomousSystemOrganization, ""⟩ }
      else enrichTertiary record
    | none => enrichTertiary record
  enrichTertiary (record : MergedRecord) : MergedRecord :=
    match rv with
    | some t =>
      if t.HasASN then
        { record with
            ASN := ⟨t.AutonomousSystemNumber, t.AutonomousSystemOrganization, ""⟩ }
      else record
    | none => record

/-- Merger.enrichWithCountryFallback (merger.go lines 445-455). -/
def enrichWithCountryFallback (gw : Option GeoWhoisCountryRecord)
    (record : MergedRecord) : MergedRecord :=
  if record.Country.ISOCode != "" then record
  else
    match gw with
    | some g =>
      if g.HasCountry then
        { record with Country := { record.Country with ISOCode := g.CountryCode } }
      else record
    | none => record

/-- The city-names block of Merger.enrichWithQQWryData (merger.go
lines 477-483): assign the zh-CN city name whenever QQWry has city
data. -/
def qqwryCityStage (q : QQWryRecord) (record : MergedRecord) : MergedRecord :=
  if q.HasCityData then
    { record with
        City := { record.City with Names := mapSet record.City.Names "zh-CN" q.CityName } }
  else record

/-- The subdivision block of Merger.enrichWithQQWryData (merger.go
lines 485-497): assign the zh-CN region name on the first subdivision,
creating one when none exists. -/
def qqwryRegionStage (q : QQWryRecord) (record : MergedRecord) : MergedRecord :=
  if q.HasRegionData then
    match record.Subdivisions with
    | [] => { record with Subdivisions := [{ Names := [("zh-CN", q.RegionName)] }] }
    | s0 :: rest =>
      { record with
          Subdivisions := { s0 with Names := mapSet s0.Names "zh-CN" q.RegionName } :: rest }
  else record

/-- The country-names block of Merger.enrichWithQQWryData (merger.go
lines 499-505): add the zh-CN country name only when not already
present. -/
def qqwryCountryStage (q : QQWryRecord) (record : MergedRecord) : MergedRecord :=
  if (record.Country.Names.lookup "zh-CN").isSome then record
  else
    { record with
        Country := { record.Country with Names := mapSet record.Country.Names "zh-CN" q.CountryName } }

/-- Merger.enrichWithQQWryData (merger.go lines 459-506): zh-CN
enrichment for Chinese IPs: guards, then the city, subdivision and
country blocks in order. Note that the city and first-subdivision
zh-CN names are assigned unconditionally, while the country zh-CN name
is only added when absent. -/
def enrichWithQQWryData (qq : Option QQWryRecord)
    (record : MergedRecord) : MergedRecord :=
  if record.Country.ISOCode != "CN" then record
  else
    match qq with
    | none => record
    | some q =>
      if !q.HasGeoData then record
      else if !q.IsChina then record
      else qqwryCountryStage q (qqwryRegionStage q (qqwryCityStage q record))

/-- Merger.buildMergedRecord (merger.go lines 345-401): GeoLite2-City
primary copy plus the ASN, country-fallback and QQWry enrichers (the
sequential merger performs no proxy enrichment). The record starts
from `Reset`, i.e. `{}`. -/
def buildMergedRecord (geo : GeoLite2CityRecord)
    (ipinfo : Option IPinfoLiteRecord) (geoASN : Option GeoLite2ASNRecord)
    (rv : Option RouteViewsASNRecord) (gw : Option GeoWhoisCountryRecord)
    (qq : Option QQWryRecord) : MergedRecord :=
  let record : MergedRecord :=
    if geo.HasGeoData then
      { City := ⟨geo.City.GeonameID, geo.City.Names⟩
        Continent := ⟨geo.Continent.Code, geo.Continent.GeonameID, geo.Continent.Names⟩
        Country := ⟨geo.Country.GeonameID, geo.Country.ISOCode, geo.Country.Names⟩
        Location :=
          ⟨geo.Location.AccuracyRadius, geo.Location.Latitude, geo.Location.Longitude,
           geo.Location.MetroCode, geo.Location.TimeZone, geo.HasLocationData⟩
        Postal := ⟨geo.Postal.Code⟩
        RegisteredCountry :=
          ⟨geo.RegisteredCountry.GeonameID, geo.RegisteredCountry.ISOCode,
           geo.RegisteredCountry.Names⟩
        Subdivisions :=
          geo.Subdivisions.map (fun sub => ⟨sub.GeonameID, sub.ISOCode, sub.Names⟩) }
    else {}
  enrichWithQQWryData qq
    (enrichWithCountryFallback gw (enrichWithASNData ipinfo geoASN rv record))

/-- Merger.buildMergedRecordFromDBIP (merger.go lines 405-442): DB-IP
as primary geo source plus the same enrichers. -/
def buildMergedRecordFromDBIP (dbip : DBIPCityRecord)
    (ipinfo : Option IPinfoLiteRecord) (geoASN : Option GeoLite2ASNRecord)
    (rv : Option RouteViewsASNRecord) (gw : Option GeoWhoisCountryRecord)
    (qq : Option QQWryRecord) : MergedRecord :=
  let record : MergedRecord :=
    if dbip.HasGeoData then
      let base : MergedRecord :=
        { City := { Names := [("en", dbip.City)] }
          Country := { ISOCode := dbip.CountryCode } }
      let base :=
        if dbip.HasLocationData then
          { base with
              Location :=
                { Latitude := dbip.Latitude, Longitude := dbip.Longitude,
                  TimeZone := dbip.Timezone, HasCoordinates := true } }
        else base
      let base :=
        if dbip.Postcode != "" then { base with Postal := ⟨dbip.Postcode⟩ } else base
      if dbip.State1 != "" then
        { base with Subdivisions := [{ Names := [("en", dbip.State1)] }] }
      else base
    else {}
  enrichWithQQWryData qq
    (enrichWithCountryFallback gw (enrichWithASNData ipinfo geoASN rv record))

/-- The per-network body of Merger.processGeoLiteCityNetworks
(merger.go lines 254-282): build the merged record and insert it
unless `IsEmpty`; `some r` means r is inserted at the prefix, `none`
means the prefix is skipped. -/
def processGeoLiteCityStep (geo : GeoLite2CityRecord)
    (ipinfo : Option IPinfoLiteRecord) (geoASN : Option GeoLite2ASNRecord)
    (rv : Option RouteViewsASNRecord) (gw : Option GeoWhoisCountryRecord)
    (qq : Option QQWryRecord) : Option MergedRecord :=
  let record := buildMergedRecord geo ipinfo geoASN rv gw qq
  if record.IsEmpty then none else some record

/-- The per-network body of Merger.processDBIPReader (merger.go lines
301-338): skip records without geo data, skip prefixes where the
GeoLite2-City point lookup has geo data, otherwise build and insert
unless `IsEmpty`. `geoCityAt` is the GeoLite2-City lookup at the
prefix's first address (`none` models a lookup error). -/
def processDBIPStep (dbip : DBIPCityRecord)
    (geoCityAt : Option GeoLite2CityRecord)
    (ipinfo : Option IPinfoLiteRecord) (geoASN : Option GeoLite2ASNRecord)
    (rv : Option RouteViewsASNRecord) (gw : Option GeoWhoisCountryRecord)
    (qq : Option QQWryRecord) : Option MergedRecord :=
  if !dbip.HasGeoData then none
  else if (match geoCityAt with
           | some g => g.HasGeoData
           | none => false) then none
  else
    let record := buildMergedRecordFromDBIP dbip ipinfo geoASN rv gw qq
    if record.IsEmpty then none else some record

/-! ## MMDB wire values (mmdbtype) and serialization (record.go) -/

/-- A small model of mmdbtype.DataType: strings, unsigned integers,
floats (as rationals), booleans, maps and slices. -/
inductive MVal where
  | mstr : String → MVal
  | mnat : Nat → MVal
  | mrat : Rat → MVal
  | mbool : Bool → MVal
  | mmap : List (String × MVal) → MVal
  | mlist : List MVal → MVal
deriving Repr

/-- An mmdbtype.Map: association list with unique keys. -/
abbrev MMap := List (String × MVal)

/-- CityRecord.toMMDBType (record.go lines 197-225). -/
def cityToMMDBType (c : CityRecord) : Option MMap :=
  let entries :=
    (if c.GeonameID != 0 then [("geoname_id", MVal.mnat c.GeonameID)] else []) ++
    (if c.Names.length > 0 then
       [("names", MVal.mmap (c.Names.map (fun kv => (intern kv.1, MVal.mstr (intern kv.2)))))]
     else [])
  if entries.isEmpty then none else some entries

/-- ContinentRecord.toMMDBType (record.go lines 227-262). -/
def continentToMMDBType (c : ContinentRecord) : Option MMap :=
  let entries :=
    (if c.Code != "" then [("code", MVal.mstr (intern c.Code))] else []) ++
    (if c.GeonameID != 0 then [("geoname_id", MVal.mnat c.GeonameID)] else []) ++
    (if c.Names.length > 0 then
       [("names", MVal.mmap (c.Names.map (fun kv => (intern kv.1, MVal.mstr (intern kv.2)))))]
     else [])
  if entries.isEmpty then none else some entries

/-- CountryRecord.toMMDBType (record.go lines 264-299). -/
def countryToMMDBType (c : CountryRecord) : Option MMap :=
  let entries :=
    (if c.GeonameID != 0 then [("geoname_id", MVal.mnat c.GeonameID)] else []) ++
    (if c.ISOCode != "" then [("iso_code", MVal.mstr (intern c.ISOCode))] else []) ++
    (if c.Names.length > 0 then
       [("names", MVal.mmap (c.Names.map (fun kv => (intern kv.1, MVal.mstr (intern kv.2)))))]
     else [])
  if entries.isEmpty then none else some entries

/-- LocationRecord.toMMDBType (record.go lines 301-341): latitude and
longitude are emitted together exactly when HasCoordinates is true. -/
def locationToMMDBType (l : LocationRecord) : Option MMap :=
  let entries :=
    (if l.AccuracyRadius != 0 then [("accuracy_radius", MVal.mnat l.AccuracyRadius)] else []) ++
    (if l.HasCoordinates then
       [("latitude", MVal.mrat l.Latitude), ("longitude", MVal.mrat l.Longitude)]
     else []) ++
    (if l.MetroCode != 0 then [("metro_code", MVal.mnat l.MetroCode)] else []) ++
    (if l.TimeZone != "" then [("time_zone", MVal.mstr (intern l.TimeZone))] else [])
  if entries.isEmpty then none else some entries

/-- PostalRecord.toMMDBType (record.go lines 343-351). -/
def postalToMMDBType (p : PostalRecord) : Option MMap :=
  if p.Code == "" then none else some [("code", MVal.mstr p.Code)]

/-- SubdivisionRecord.toMMDBType (record.go lines 353-388). -/
def subdivisionToMMDBType (s : SubdivisionRecord) : Option MMap :=
  let entries :=
    (if s.GeonameID != 0 then [("geoname_id", MVal.mnat s.GeonameID)] else []) ++
    (if s.ISOCode != "" then [("iso_code", MVal.mstr (intern s.ISOCode))] else []) ++
    (if s.Names.length > 0 then
       [("names", MVal.mmap (s.Names.map (fun kv => (intern kv.1, MVal.mstr (intern kv.2)))))]
     else [])
  if entries.isEmpty then none else some entries

/-- MergedRecord.subdivisionsToMMDBType (record.go lines 390-406). -/
def subdivisionsToMMDBType (subs : List SubdivisionRecord) : Option (List MVal) :=
  if subs.isEmpty then none
  else
    let result := subs.filterMap (fun s => (subdivisionToMMDBType s).map MVal.mmap)
    if result.isEmpty then none else some result

/-- ASNRecord.toMMDBType (record.go lines 408-439). -/
def asnToMMDBType (a : ASNRecord) : Option MMap :=
  let entries :=
    (if a.Number != 0 then [("autonomous_system_number", MVal.mnat a.Number)] else []) ++
    (if a.Organization != "" then
       [("autonomous_system_organization", MVal.mstr (intern a.Organization))] else []) ++
    (if a.Domain != "" then [("as_domain", MVal.mstr (intern a.Domain))] else [])
  if entries.isEmpty then none else some entries

/-- ProxyRecord.toMMDBType (record.go lines 441-494): each flag is
emitted only when true. -/
def proxyToMMDBType (p : ProxyRecord) : Option MMap :=
  let entries :=
    (if p.IsProxy then [("is_proxy", MVal.mbool true)] else []) ++
    (if p.IsVPN then [("is_vpn", MVal.mbool true)] else []) ++
    (if p.IsTor then [("is_tor", MVal.mbool true)] else []) ++
    (if p.IsHosting then [("is_hosting", MVal.mbool true)] else []) ++
    (if p.IsCDN then [("is_cdn", MVal.mbool true)] else []) ++
    (if p.IsSchool then [("is_school", MVal.mbool true)] else []) ++
    (if p.IsAnonymous then [("is_anonymous", MVal.mbool true)] else [])
  if entries.isEmpty then none else some entries

/-- Helper for ToMMDBType: the top-level entry for one sub-map. -/
def optEntry (k : String) (o : Option MMap) : MMap :=
  match o with
  | some m => [(k, MVal.mmap m)]
  | none => []

/-- Helper for ToMMDBType: the top-level entry for the subdivisions
slice. -/
def subdEntry (o : Option (List MVal)) : MMap :=
  match o with
  | some l => [("subdivisions", MVal.mlist l)]
  | none => []

/-- MergedRecord.ToMMDBType (record.go lines 118-195): assembles the
top-level map from the non-nil sub-maps; returns `none` (Go nil) when
every sub-map is nil. -/
def MergedRecord.ToMMDBType (r : MergedRecord) : Option MMap :=
  let entries :=
    optEntry "city" (cityToMMDBType r.City) ++
    (optEntry "continent" (continentToMMDBType r.Continent) ++
    (optEntry "country" (countryToMMDBType r.Country) ++
    (optEntry "location" (locationToMMDBType r.Location) ++
    (optEntry "postal" (postalToMMDBType r.Postal) ++
    (optEntry "registered_country" (countryToMMDBType r.RegisteredCountry) ++
    (subdEntry (subdivisionsToMMDBType r.Subdivisions) ++
    (optEntry "asn" (asnToMMDBType r.ASN) ++
    optEntry "proxy" (proxyToMMDBType r.Proxy))))))))
  if entries.isEmpty then none else some entries

/-- mergeMMDBMaps (merger.go lines 561-576): copy the existing map,
then add each key of the new map only when it is not already
present. -/
def mergeMMDBMaps (existing new : MMap) : MMap :=
  new.foldl (fun res kv => if (res.lookup kv.1).isSome then res else res ++ [kv]) existing

/-- Merger.insertWithMerge (merger.go lines 544-559): the merge
function passed to InsertFunc; `existing = none` models an empty slot
(Go nil DataType), which takes the serialized record as-is; an
existing value that is not a Map is likewise replaced by the
serialized record; an existing Map is merged with mergeMMDBMaps. -/
def insertWithMergeFn (existing : Option MVal) (newMap : MMap) : MMap :=
  match existing with
  | some (MVal.mmap m) => mergeMMDBMaps m newMap
  | some _ => newMap
  | none => newMap

/-! ## OpenProxyDB reader (internal/reader/openproxydb.go and its
optimized variant)

Addresses model net/netip.Addr after Unmap: a family tag (`is6`) plus
the address value as a natural number (32-bit for IPv4, 128-bit for
IPv6). netip.Addr.Compare orders all IPv4 addresses before all IPv6
addresses and then compares values, giving the lexicographic order
below. A CIDR models netip.Prefix: the (possibly unmasked) address
plus the bit length; netip.Prefix.Contains requires the same family
and compares only the top `bits` bits (a right shift by the host-bit
count, written here as division by a power of two). -/

/-- net/netip.Addr after Unmap. -/
structure NAddr where
  is6 : Bool
  val : Nat
deriving Repr, DecidableEq

/-- Address width in bits. -/
def NAddr.width (a : NAddr) : Nat := if a.is6 then 128 else 32

/-- netip.Addr.Compare strict order: IPv4 before IPv6, then value. -/
def addrLt (x y : NAddr) : Bool :=
  (!x.is6 && y.is6) || (x.is6 == y.is6 && decide (x.val < y.val))

/-- netip.Addr.Compare non-strict order. -/
def addrLe (x y : NAddr) : Bool :=
  (!x.is6 && y.is6) || (x.is6 == y.is6 && decide (x.val ≤ y.val))

/-- netip.Prefix: stored address (which may carry host bits, as
ParsePrefix does not mask) plus bit length. -/
structure Cidr where
  addr : NAddr
  bits : Nat
deriving Repr, DecidableEq

/-- The number of host bits of a CIDR. -/
def Cidr.hostBits (p : Cidr) : Nat := p.addr.width - p.bits

/-- netip.Prefix.Contains: same family and equal top bits (the shift
by hostBits is written as division by 2 ^ hostBits). -/
def cidrContains (p : Cidr) (a : NAddr) : Bool :=
  p.addr.is6 == a.is6 &&
  decide (a.val / 2 ^ p.hostBits = p.addr.val / 2 ^ p.hostBits)

/-- lastAddrInPrefix (optimized openproxydb file lines 297-330): OR
the host-bit mask into the stored address; the Go code does this
bytewise for IPv6 and via a uint32 for IPv4, both equal to `val |||
(2 ^ hostBits - 1)`. -/
def lastAddrInCidr (p : Cidr) : NAddr :=
  ⟨p.addr.is6, p.addr.val ||| (2 ^ p.hostBits - 1)⟩

/-- A parsed CIDR row of the proxy list (cidrEntry in
openproxydb.go). -/
structure CidrEntry where
  pfx : Cidr
  record : OpenproxyDBRecord
deriving Repr, DecidableEq

/-- unicode.ToLower as used by strings.ToLower, restricted to the
ASCII range: no code point outside ASCII lower-cases into a character
of "true"/"1" or into a White_Space character, so extending the map to
the full Unicode case table cannot change the outcome of any
comparison or trim parseBool performs. -/
def charToLowerAscii (c : Char) : Char :=
  if 'A' ≤ c && c ≤ 'Z' then Char.ofNat (c.toNat + 32) else c

/-- unicode.IsSpace, the trim predicate of strings.TrimSpace: the
Unicode White_Space property, i.e. U+0009..U+000D (including vertical
tab and form feed), U+0020, U+0085, U+00A0, U+1680, U+2000..U+200A,
U+2028, U+2029, U+202F, U+205F and U+3000. -/
def isSpaceGo (c : Char) : Bool :=
  decide (9 ≤ c.toNat ∧ c.toNat ≤ 13) || c.toNat == 32 ||
  c.toNat == 0x85 || c.toNat == 0xA0 || c.toNat == 0x1680 ||
  decide (0x2000 ≤ c.toNat ∧ c.toNat ≤ 0x200A) ||
  c.toNat == 0x2028 || c.toNat == 0x2029 || c.toNat == 0x202F ||
  c.toNat == 0x205F || c.toNat == 0x3000

/-- strings.ToLower, character-wise over the string's characters. -/
def toLowerGo (s : List Char) : List Char := s.map charToLowerAscii

/-- strings.TrimSpace: drop whitespace from both ends. -/
def trimSpaceGo (s : List Char) : List Char :=
  (((s.dropWhile isSpaceGo).reverse).dropWhile isSpaceGo).reverse

/-- parseBool (openproxydb.go lines 173-177): lower-case, trim, accept
exactly "true" and "1". -/
def parseBoolGo (s : String) : Bool :=
  let t := trimSpaceGo (toLowerGo s.data)
  t == "true".data || t == "1".data

/-- The record construction and discard test of one row of
OpenproxyDBReader.parse, over the already-parsed flags. -/
def buildRowFlags (ab px vp cd rb sc tr wh : Bool) : Option OpenproxyDBRecord :=
  let isProxy := ab || px || rb
  let record : OpenproxyDBRecord :=
    { IsProxy := isProxy, IsVPN := vp, IsTor := tr, IsHosting := wh,
      IsCDN := cd, IsSchool := sc, IsAnonymous := isProxy || vp || tr }
  if !record.HasData then none else some record

/-- The flag-handling part of one row of OpenproxyDBReader.parse
(openproxydb.go lines 124-149): parse the eight source flags, derive
IsProxy and IsAnonymous, and discard the row when HasData is false.
`some r` is the record stored for the row, `none` means the row is
skipped. -/
def buildRowRecord (anonblock proxy vpn cdn rangeblock school tor webhost : String) :
    Option OpenproxyDBRecord :=
  buildRowFlags (parseBoolGo anonblock) (parseBoolGo proxy) (parseBoolGo vpn)
    (parseBoolGo cdn) (parseBoolGo rangeblock) (parseBoolGo school)
    (parseBoolGo tor) (parseBoolGo webhost)

/-- The forward linear scan of OpenproxyDBReader.findInCIDR
(openproxydb.go lines 217-236): `best` starts as `none` (bestBits -1)
and an entry replaces it only when it contains the address with
strictly more bits. -/
def scanFwd (a : NAddr) : List CidrEntry → Option CidrEntry → Option CidrEntry
  | [], best => best
  | e :: rest, best =>
    scanFwd a rest
      (if cidrContains e.pfx a && decide (bestBitsOf best < (e.pfx.bits : Int))
       then some e else best)
where
  bestBitsOf : Option CidrEntry → Int
    | none => -1
    | some e => e.pfx.bits

/-- OpenproxyDBReader.findInCIDR (openproxydb.go lines 217-236), the
naive linear scan over all CIDR rows. -/
def findInCIDRGo (l : List CidrEntry) (a : NAddr) : Option CidrEntry :=
  scanFwd a l none

/-- OpenproxyDBReader.LookupTo (openproxydb.go lines 193-215) after
the AddrFromSlice/Unmap conversion: the single-IP hash map (an
association list here) takes priority over any CIDR match. -/
def proxyLookupTo (singleIPs : List (NAddr × OpenproxyDBRecord))
    (cidr : List CidrEntry) (a : NAddr) : Option OpenproxyDBRecord :=
  match singleIPs.lookup a with
  | some rec => some rec
  | none => (findInCIDRGo cidr a).map (fun e => e.record)

/-! ### The optimized findInCIDR (the unnamed optimized openproxydb
file, lines 242-295) -/

/-- sort.Search over the sorted CIDR slice, looking for the first
index whose start address is greater than `a`. Go's sort.Search is a
binary search that returns the least such index provided the
predicate is monotone along the slice, which holds whenever the slice
is sorted by start address ascending; this definition computes that
least index directly. -/
def sortSearchIdx (l : List CidrEntry) (a : NAddr) : Nat :=
  (l.takeWhile (fun e => !addrLt a e.pfx.addr)).length

/-- The backward scan of the optimized findInCIDR (lines 262-289):
entries are processed from index idx-1 down to 0 (here: the reversed
take), updating the best strictly-more-bits containing match, and
breaking early once a match is held and the current entry ends before
the address. -/
def scanBack (a : NAddr) : List CidrEntry → Option CidrEntry → Option CidrEntry
  | [], best => best
  | e :: rest, best =>
    let best' :=
      if cidrContains e.pfx a && decide (scanFwd.bestBitsOf best < (e.pfx.bits : Int))
      then some e else best
    if best'.isSome && addrLt (lastAddrInCidr e.pfx) a then best'
    else scanBack a rest best'

/-- The optimized findInCIDR (lines 242-295): empty check, IPSet
containment fast path, binary search, then the backward scan. The
netipx IPSet is built by adding every row's prefix range, so its
Contains test is exactly "some row's prefix contains the address". -/
def findInCIDROpt (l : List CidrEntry) (a : NAddr) : Option CidrEntry :=
  if l.isEmpty then none
  else if !(l.any fun e => cidrContains e.pfx a) then none
  else scanBack a ((l.take (sortSearchIdx l a)).reverse) none

/-- The sort order of OpenOpenproxyDB (openproxydb.go lines 58-67):
start address ascending, and for equal start addresses larger bit
length (more specific) first. This is the non-strict relation that
holds between any earlier and any later element of the sorted
slice. -/
def entrySortedLe (x y : CidrEntry) : Prop :=
  addrLt x.pfx.addr y.pfx.addr = true ∨
  (x.pfx.addr = y.pfx.addr ∧ y.pfx.bits ≤ x.pfx.bits)

/-- A CIDR is masked when its stored address carries no host bits,
i.e. it is the network start address. -/
def Cidr.Masked (p : Cidr) : Prop := 2 ^ p.hostBits ∣ p.addr.val

/-! ## The parallel worker (the unnamed worker-pool file, part of
package merger)

The workerContext keeps a per-worker single-entry ASN cache
(cachedASN, cachedASNNetwork, cachedASNValid) consulted before the
ASN sources. -/

/-- The cache fields of workerContext (worker-pool file lines 46-49);
`{}` is the zero value of a freshly created context. -/
structure WState where
  cachedASN : ASNRecord := {}
  cachedASNNetwork : Option Cidr := none
  cachedASNValid : Bool := false
deriving Repr, DecidableEq

/-- workerContext.enrichWithASNData (worker-pool file lines 272-329):
check the cache, otherwise run the three-source priority chain and
refresh cachedASN/cachedASNValid (the code never assigns
cachedASNNetwork). Returns the new cache state and the enriched
record. -/
def enrichWithASNDataW (st : WState) (ip : NAddr)
    (ipinfo : Option IPinfoLiteRecord) (geoASN : Option GeoLite2ASNRecord)
    (rv : Option RouteViewsASNRecord) (record : MergedRecord) :
    WState × MergedRecord :=
  if st.cachedASNValid &&
     (match st.cachedASNNetwork with
      | some n => cidrContains n ip
      | none => false) then
    (st, if st.cachedASN.Number != 0 then { record with ASN := st.cachedASN } else record)
  else
    let st0 : WState := { st with cachedASNValid := false, cachedASNNetwork := none }
    match ipinfo with
    | some r =>
      if r.HasASN then
        let asn : ASNRecord := ⟨r.GetASNumber, r.ASName, r.ASDomain⟩
        ({ st0 with cachedASN := asn, cachedASNValid := true }, { record with ASN := asn })
      else secondary st0
    | none => secondary st0
where
  secondary (st0 : WState) : WState × MergedRecord :=
    match geoASN with
    | some g =>
      if g.HasASN then
        let asn : ASNRecord := ⟨g.AutonomousSystemNumber, g.AutonomousSystemOrganization, ""⟩
        ({ st0 with cachedASN := asn, cachedASNValid := true }, { record with ASN := asn })
      else tertiary st0
    | none => tertiary st0
  tertiary (st0 : WState) : WState × MergedRecord :=
    match rv with
    | some t =>
      if t.HasASN then
        let asn : ASNRecord := ⟨t.AutonomousSystemNumber, t.AutonomousSystemOrganization, ""⟩
        ({ st0 with cachedASN := asn, cachedASNValid := true }, { record with ASN := asn })
      else ({ st0 with cachedASN := {}, cachedASNValid := true }, record)
    | none => ({ st0 with cachedASN := {}, cachedASNValid := true }, record)

/-- workerContext.enrichWithProxyData (worker-pool file lines
389-406): an unconditional OpenProxyDB point lookup; on a hit all
seven flags are copied into the record's Proxy field. -/
def enrichWithProxyData (singleIPs : List (NAddr × OpenproxyDBRecord))
    (cidr : List CidrEntry) (ip : NAddr) (record : MergedRecord) : MergedRecord :=
  match proxyLookupTo singleIPs cidr ip with
  | none => record
  | some p =>
    { record with
        Proxy := ⟨p.IsProxy, p.IsVPN, p.IsTor, p.IsHosting, p.IsCDN, p.IsSchool, p.IsAnonymous⟩ }

/-- workerContext.buildMergedRecord (worker-pool file lines 212-270):
the same GeoLite2-City primary copy as the sequential merger, then the
ASN (cached), country-fallback, QQWry, and proxy enrichers. Returns
the new worker cache state and the built record (which starts from
`Reset`). -/
def workerBuildMergedRecord (st : WState) (ip : NAddr) (geo : GeoLite2CityRecord)
    (ipinfo : Option IPinfoLiteRecord) (geoASN : Option GeoLite2ASNRecord)
    (rv : Option RouteViewsASNRecord) (gw : Option GeoWhoisCountryRecord)
    (qq : Option QQWryRecord) (singleIPs : List (NAddr × OpenproxyDBRecord))
    (cidr : List CidrEntry) : WState × MergedRecord :=
  let record : MergedRecord :=
    if geo.HasGeoData then
      { City := ⟨geo.City.GeonameID, geo.City.Names⟩
        Continent := ⟨geo.Continent.Code, geo.Continent.GeonameID, geo.Continent.Names⟩
        Country := ⟨geo.Country.GeonameID, geo.Country.ISOCode, geo.Country.Names⟩
        Location :=
          ⟨geo.Location.AccuracyRadius, geo.Location.Latitude, geo.Location.Longitude,
           geo.Location.MetroCode, geo.Location.TimeZone, geo.HasLocationData⟩
        Postal := ⟨geo.Postal.Code⟩
        RegisteredCountry :=
          ⟨geo.RegisteredCountry.GeonameID, geo.RegisteredCountry.ISOCode,
           geo.RegisteredCountry.Names⟩
        Subdivisions :=
          geo.Subdivisions.map (fun sub => ⟨sub.GeonameID, sub.ISOCode, sub.Names⟩) }
    else {}
  let (st', r1) := enrichWithASNDataW st ip ipinfo geoASN rv record
  let r2 := enrichWithCountryFallback gw r1
  let r3 := enrichWithQQWryData qq r2
  (st', enrichWithProxyData singleIPs cidr ip r3)

/-! ## Association-list lookup helpers -/

/-- Lookup in an appended list finds the binding of the first list. -/
theorem lookup_append_some {α β : Type} [BEq α] {l1 l2 : List (α × β)} {k : α} {v : β}
    (h : l1.lookup k = some v) : (l1 ++ l2).lookup k = some v := by
  induction l1 with
  | nil => simp [List.lookup] at h
  | cons kv rest ih =>
    rw [List.cons_append]
    rw [List.lookup] at h ⊢
    cases hkv : k == kv.1 with
    | true => simpa [hkv] using h
    | false =>
      simp only [hkv] at h ⊢
      exact ih h

/-- Lookup in an appended list falls through to the second list when
the key is absent from the first. -/
theorem lookup_append_none {α β : Type} [BEq α] {l1 l2 : List (α × β)} {k : α}
    (h : l1.lookup k = none) : (l1 ++ l2).lookup k = l2.lookup k := by
  induction l1 with
  | nil => simp
  | cons kv rest ih =>
    rw [List.cons_append]
    rw [List.lookup] at h ⊢
    cases hkv : k == kv.1 with
    | true => simp [hkv] at h
    | false =>
      simp only [hkv] at h ⊢
      exact ih h

/-! ## Claim C7: proxy-list CSV flag parsing -/

/-- The discard test of buildRowFlags over the parsed flags. -/
theorem buildRowFlags_none_iff (b1 b2 b3 b4 b5 b6 b7 b8 : Bool) :
    (buildRowFlags b1 b2 b3 b4 b5 b6 b7 b8 = none ↔
      (b1 = false ∧ b2 = false ∧ b3 = false ∧ b4 = false ∧
       b5 = false ∧ b6 = false ∧ b7 = false ∧ b8 = false)) := by
  cases b1 <;> cases b2 <;> cases b3 <;> cases b4 <;> cases b5 <;>
    cases b6 <;> cases b7 <;> cases b8 <;> decide

/-- C7: the Proxy-List CSV adapter parses each flag case-insensitively
(lower-casing before comparing), treating exactly "true" and "1"
(after trimming) as true; each stored row has `is_proxy = anonblock OR
proxy OR rangeblock` and `is_anonymous = is_proxy OR vpn OR tor`; and
a row whose source flags are all false is discarded, storing no
entry. -/
theorem proxyRowParsing (anonblock proxy vpn cdn rangeblock school tor webhost : String) :
    (parseBoolGo anonblock = true ↔
      (trimSpaceGo (toLowerGo anonblock.data) = "true".data ∨
       trimSpaceGo (toLowerGo anonblock.data) = "1".data)) ∧
    (buildRowRecord anonblock proxy vpn cdn rangeblock school tor webhost = none ↔
      (parseBoolGo anonblock = false ∧ parseBoolGo proxy = false ∧
       parseBoolGo vpn = false ∧ parseBoolGo cdn = false ∧
       parseBoolGo rangeblock = false ∧ parseBoolGo school = false ∧
       parseBoolGo tor = false ∧ parseBoolGo webhost = false)) ∧
    (∀ r, buildRowRecord anonblock proxy vpn cdn rangeblock school tor webhost = some r →
      r.IsProxy = (parseBoolGo anonblock || parseBoolGo proxy || parseBoolGo rangeblock) ∧
      r.IsAnonymous = (r.IsProxy || parseBoolGo vpn || parseBoolGo tor)) := by
  refine ⟨?_, ?_, ?_⟩
  · simp [parseBoolGo]
  · exact buildRowFlags_none_iff _ _ _ _ _ _ _ _
  · intro r hr
    simp only [buildRowRecord, buildRowFlags, OpenproxyDBRecord.HasData] at hr
    split at hr
    · exact Option.noConfusion hr
    · cases hr
      constructor <;> rfl

/-- Witness for C7 at a concrete row (the anonblock column carries a
leading vertical tab, which TrimSpace removes). -/
theorem proxyRowParsing_witness :
    buildRowRecord "\x0BTrue" "0" "" "1" "" "" "" "" =
      some { IsProxy := true, IsCDN := true, IsAnonymous := true } ∧
    (buildRowRecord "\x0BTrue" "0" "" "1" "" "" "" "" = none ↔
      (parseBoolGo "\x0BTrue" = false ∧ parseBoolGo "0" = false ∧
       parseBoolGo "" = false ∧ parseBoolGo "1" = false ∧
       parseBoolGo "" = false ∧ parseBoolGo "" = false ∧
       parseBoolGo "" = false ∧ parseBoolGo "" = false)) := by
  exact ⟨by decide, (proxyRowParsing "\x0BTrue" "0" "" "1" "" "" "" "").2.1⟩

/-! ## Claim C8: coordinate atomicity in serialization -/

/-- Whether the location sub-map of a serialized record contains the
given key. -/
def locContainsKey (o : Option MMap) (k : String) : Bool :=
  match o with
  | some m =>
    match m.lookup "location" with
    | some (MVal.mmap lm) => (lm.lookup k).isSome
    | _ => false
  | none => false

/-- A nil location sub-map means the record has no coordinates. -/
theorem locationToMMDBType_none {l : LocationRecord}
    (h : locationToMMDBType l = none) : l.HasCoordinates = false := by
  by_contra hc
  simp only [Bool.not_eq_false] at hc
  simp [locationToMMDBType, hc] at h

/-- Inside a non-nil location sub-map, latitude and longitude are each
present exactly when HasCoordinates is true. -/
theorem locationToMMDBType_some {l : LocationRecord} {m : MMap}
    (h : locationToMMDBType l = some m) :
    ((m.lookup "latitude").isSome = l.HasCoordinates ∧
     (m.lookup "longitude").isSome = l.HasCoordinates) := by
  by_cases h1 : (l.AccuracyRadius != 0) = true <;>
    cases hc : l.HasCoordinates <;>
    by_cases h3 : (l.MetroCode != 0) = true <;>
    by_cases h4 : (l.TimeZone != "") = true <;>
    simp_all [locationToMMDBType, List.lookup] <;>
    aesop

/-- Lookup with a different key skips an optEntry segment. -/
theorem lookup_optEntry_ne {k k' : String} {o : Option MMap} {rest : MMap}
    (h : (k == k') = false) :
    (optEntry k' o ++ rest).lookup k = rest.lookup k := by
  cases o <;> simp [optEntry, List.lookup, h]

/-- Lookup with the matching key reads an optEntry segment. -/
theorem lookup_optEntry_self {k : String} {o : Option MMap} {rest : MMap} :
    (optEntry k o ++ rest).lookup k =
      (match o with
       | some m => some (MVal.mmap m)
       | none => rest.lookup k) := by
  cases o <;> simp [optEntry, List.lookup]

/-- Lookup with a non-subdivisions key skips the subdivisions
segment. -/
theorem lookup_subdEntry_ne {k : String} {o : Option (List MVal)} {rest : MMap}
    (h : (k == "subdivisions") = false) :
    (subdEntry o ++ rest).lookup k = rest.lookup k := by
  cases o <;> simp [subdEntry, List.lookup, h]

/-- No "location" key occurs after the location segment of
ToMMDBType. -/
theorem lookup_location_tail (p1 p2 : Option MMap) (o3 : Option (List MVal))
    (p4 p5 : Option MMap) :
    List.lookup "location"
      (optEntry "postal" p1 ++ (optEntry "registered_country" p2 ++
        (subdEntry o3 ++ (optEntry "asn" p4 ++ optEntry "proxy" p5)))) = none := by
  cases p1 <;> cases p2 <;> cases o3 <;> cases p4 <;> cases p5 <;>
    simp [optEntry, subdEntry, List.lookup]

/-- In a serialized record, the top-level location entry is exactly the
location sub-map. -/
theorem ToMMDBType_lookup_location {r : MergedRecord} {entries : MMap}
    (h : r.ToMMDBType = some entries) :
    entries.lookup "location" = (locationToMMDBType r.Location).map MVal.mmap := by
  simp only [MergedRecord.ToMMDBType] at h
  split at h
  · exact Option.noConfusion h
  · cases h
    rw [lookup_optEntry_ne (by decide), lookup_optEntry_ne (by decide),
      lookup_optEntry_ne (by decide), lookup_optEntry_self]
    cases hL : locationToMMDBType r.Location with
    | none => simp [lookup_location_tail]
    | some m => rfl

/-- A record serialized to nil has no location sub-map at all. -/
theorem ToMMDBType_none_location {r : MergedRecord}
    (h : r.ToMMDBType = none) : locationToMMDBType r.Location = none := by
  simp only [MergedRecord.ToMMDBType] at h
  split at h
  case isTrue hE =>
    rw [List.isEmpty_iff] at hE
    rcases List.append_eq_nil.mp hE with ⟨-, hE⟩
    rcases List.append_eq_nil.mp hE with ⟨-, hE⟩
    rcases List.append_eq_nil.mp hE with ⟨-, hE⟩
    rcases List.append_eq_nil.mp hE with ⟨hLoc, -⟩
    cases hL : locationToMMDBType r.Location with
    | none => rfl
    | some m => rw [hL] at hLoc; simp [optEntry] at hLoc
  case isFalse => exact Option.noConfusion h

/-- C8: for every serialized record, the location sub-map contains the
latitude key iff it contains the longitude key: both are present
exactly when HasCoordinates is true, and neither is present otherwise
(even when the stored coordinates are zero). -/
theorem coordinateAtomicity (r : MergedRecord) :
    locContainsKey r.ToMMDBType "latitude" = r.Location.HasCoordinates ∧
    locContainsKey r.ToMMDBType "longitude" = r.Location.HasCoordinates := by
  cases hT : r.ToMMDBType with
  | none =>
    have hL := ToMMDBType_none_location hT
    have hc := locationToMMDBType_none hL
    simp [locContainsKey, hc]
  | some entries =>
    have hlu := ToMMDBType_lookup_location hT
    cases hL : locationToMMDBType r.Location with
    | none =>
      have hc := locationToMMDBType_none hL
      rw [hL] at hlu
      simp [locContainsKey, hlu, hc]
    | some m =>
      have hkeys := locationToMMDBType_some hL
      rw [hL] at hlu
      simp only [locContainsKey, hlu, Option.map_some]
      exact hkeys

/-! ## Claim C4: Pass-2 insert-with-merge is non-destructive -/

/-- The merge fold keeps every binding already present in the
accumulator. -/
theorem mergeFold_keeps_existing {new res : MMap} {k : String} {v : MVal}
    (h : res.lookup k = some v) :
    (new.foldl (fun res kv => if (res.lookup kv.1).isSome then res else res ++ [kv]) res).lookup k
      = some v := by
  induction new generalizing res with
  | nil => simpa using h
  | cons kv rest ih =>
    simp only [List.foldl_cons]
    by_cases hkv : (res.lookup kv.1).isSome
    · rw [if_pos hkv]
      exact ih h
    · rw [if_neg hkv]
      exact ih (lookup_append_some h)

/-- The merge fold fills a key absent from the accumulator with the
new map's binding for it. -/
theorem mergeFold_fills_missing {new res : MMap} {k : String}
    (h : res.lookup k = none) :
    (new.foldl (fun res kv => if (res.lookup kv.1).isSome then res else res ++ [kv]) res).lookup k
      = new.lookup k := by
  induction new generalizing res with
  | nil => simpa using h
  | cons kv rest ih =>
    simp only [List.foldl_cons, List.lookup]
    by_cases hk : k == kv.1
    · have hkv : (res.lookup kv.1).isSome = false := by
        rcases (beq_iff_eq ..).mp hk with rfl
        simp [h]
      rw [if_neg (by simp [hkv]), hk]
      have hres : (res ++ [kv]).lookup k = some kv.2 := by
        rw [lookup_append_none h, List.lookup, hk]
      exact mergeFold_keeps_existing hres
    · simp only [Bool.not_eq_true] at hk
      rw [hk]
      by_cases hkv : (res.lookup kv.1).isSome
      · rw [if_pos hkv]
        exact ih h
      · rw [if_neg hkv]
        refine ih ?_
        rw [lookup_append_none h, List.lookup, hk]
        rfl

/-- C4: Pass-2 insert-with-merge is non-destructive at the top-level
map. Every top-level key already present in the existing map keeps its
existing value in the merged result; keys of the new record are added
only when absent from the existing map; every key of the merged result
is resolved by that rule (existing value if present, else the new
map's binding, so no key is invented or dropped); merging is what
insertWithMerge does on an existing Map; and when no record exists at
the prefix, or the existing value is not a Map, the new record is
inserted as-is. -/
theorem pass2MergeNonDestructive (existing new : MMap) :
    (∀ k v, existing.lookup k = some v →
      (mergeMMDBMaps existing new).lookup k = some v) ∧
    (∀ k, existing.lookup k = none →
      (mergeMMDBMaps existing new).lookup k = new.lookup k) ∧
    (∀ k, (mergeMMDBMaps existing new).lookup k =
      match existing.lookup k with
      | some v => some v
      | none => new.lookup k) ∧
    insertWithMergeFn (some (MVal.mmap existing)) new = mergeMMDBMaps existing new ∧
    (∀ v : MVal, (∀ m : MMap, v ≠ MVal.mmap m) →
      insertWithMergeFn (some v) new = new) ∧
    insertWithMergeFn none new = new := by
  refine ⟨?_, ?_, ?_, rfl, ?_, rfl⟩
  · intro k v h
    exact mergeFold_keeps_existing h
  · intro k h
    exact mergeFold_fills_missing h
  · intro k
    cases h : existing.lookup k with
    | some v => exact mergeFold_keeps_existing h
    | none => exact mergeFold_fills_missing h
  · intro v hv
    cases v with
    | mmap m => exact absurd rfl (hv m)
    | mstr s => rfl
    | mnat n => rfl
    | mrat x => rfl
    | mbool b => rfl
    | mlist l => rfl

/-- Witness for C4: a colliding key keeps the existing value, a fresh
key is filled from the new map, and a non-map existing value is
replaced by the new map. -/
theorem pass2MergeNonDestructive_witness :
    (mergeMMDBMaps [("country", MVal.mnat 1)]
        [("country", MVal.mnat 2), ("asn", MVal.mnat 3)]).lookup "country"
      = some (MVal.mnat 1) ∧
    (mergeMMDBMaps [("country", MVal.mnat 1)]
        [("country", MVal.mnat 2), ("asn", MVal.mnat 3)]).lookup "asn"
      = some (MVal.mnat 3) ∧
    insertWithMergeFn (some (MVal.mstr "stale"))
        [("country", MVal.mnat 2), ("asn", MVal.mnat 3)]
      = [("country", MVal.mnat 2), ("asn", MVal.mnat 3)] := by
  refine ⟨?_, ?_, ?_⟩
  · exact (pass2MergeNonDestructive [("country", MVal.mnat 1)]
      [("country", MVal.mnat 2), ("asn", MVal.mnat 3)]).1 "country" (MVal.mnat 1) rfl
  · exact ((pass2MergeNonDestructive [("country", MVal.mnat 1)]
      [("country", MVal.mnat 2), ("asn", MVal.mnat 3)]).2.1 "asn" rfl).trans rfl
  · exact (pass2MergeNonDestructive [("country", MVal.mnat 1)]
      [("country", MVal.mnat 2), ("asn", MVal.mnat 3)]).2.2.2.2.1
      (MVal.mstr "stale") (fun m h => MVal.noConfusion h)


/-! ## Claim C1: no empty leaves -/

/-- The record-level disjunction of the spec's invariant I1, modelled
from the spec's words (country iso, city geoname id, asn number,
coordinates): the spec's IsEmpty is its negation. -/
def specNonEmpty (r : MergedRecord) : Prop :=
  r.Country.ISOCode ≠ "" ∨ r.City.GeonameID ≠ 0 ∨ r.ASN.Number ≠ 0 ∨
  r.Location.HasCoordinates = true

instance (r : MergedRecord) : Decidable (specNonEmpty r) := by
  unfold specNonEmpty; infer_instance

/-- The disjunction the code's IsEmpty actually tests: the spec's
disjunction extended with a nonempty city-names map. -/
def codeNonEmpty (r : MergedRecord) : Prop :=
  r.Country.ISOCode ≠ "" ∨ r.City.GeonameID ≠ 0 ∨ r.City.Names ≠ [] ∨
  r.ASN.Number ≠ 0 ∨ r.Location.HasCoordinates = true

instance (r : MergedRecord) : Decidable (codeNonEmpty r) := by
  unfold codeNonEmpty; infer_instance

/-- IsEmpty is the negation of the extended disjunction. -/
theorem isEmpty_false_iff (r : MergedRecord) :
    r.IsEmpty = false ↔ codeNonEmpty r := by
  simp [MergedRecord.IsEmpty, codeNonEmpty, List.length_eq_zero]
  tauto

/-- The record Pass 2 builds and inserts for a DB-IP row carrying only
a city name, with every auxiliary lookup missing. -/
def cityOnlyDBIPRecord : MergedRecord :=
  { City := { Names := [("en", "Springfield")] } }

/-- C1 counterexample: Pass 2 inserts the record of a DB-IP row that
carries only a city name, although that record falsifies the spec's
four-way disjunction (the code's IsEmpty also counts city names). -/
theorem noEmptyLeavesCounterexample :
    processDBIPStep { City := "Springfield" } (some {}) none none none none none
      = some cityOnlyDBIPRecord ∧ ¬ specNonEmpty cityOnlyDBIPRecord := by
  exact ⟨rfl, by decide⟩

/-- C1 (amended): every record inserted by Pass 1 or Pass 2 satisfies
the disjunction extended with a nonempty city-names map (country iso
nonempty OR city geoname id nonzero OR city names nonempty OR asn
number nonzero OR has_coordinates), and any record failing the
extended disjunction is skipped and never inserted. -/
theorem noEmptyLeavesAmended (geo : GeoLite2CityRecord) (dbip : DBIPCityRecord)
    (gc : Option GeoLite2CityRecord) (ipinfo : Option IPinfoLiteRecord)
    (geoASN : Option GeoLite2ASNRecord) (rv : Option RouteViewsASNRecord)
    (gw : Option GeoWhoisCountryRecord) (qq : Option QQWryRecord) :
    (∀ r, processGeoLiteCityStep geo ipinfo geoASN rv gw qq = some r → codeNonEmpty r) ∧
    (¬ codeNonEmpty (buildMergedRecord geo ipinfo geoASN rv gw qq) →
      processGeoLiteCityStep geo ipinfo geoASN rv gw qq = none) ∧
    (∀ r, processDBIPStep dbip gc ipinfo geoASN rv gw qq = some r → codeNonEmpty r) ∧
    (¬ codeNonEmpty (buildMergedRecordFromDBIP dbip ipinfo geoASN rv gw qq) →
      processDBIPStep dbip gc ipinfo geoASN rv gw qq = none) := by
  refine ⟨?_, ?_, ?_, ?_⟩
  · intro r h
    simp only [processGeoLiteCityStep] at h
    split at h
    · exact Option.noConfusion h
    · cases h
      rename_i hne
      exact (isEmpty_false_iff _).mp (by simpa using hne)
  · intro h
    simp only [processGeoLiteCityStep]
    rw [if_pos]
    by_contra hne
    exact h ((isEmpty_false_iff _).mp (by simpa using hne))
  · intro r h
    simp only [processDBIPStep] at h
    split at h
    · exact Option.noConfusion h
    · split at h
      · exact Option.noConfusion h
      · split at h
        · exact Option.noConfusion h
        · cases h
          rename_i hne
          exact (isEmpty_false_iff _).mp (by simpa using hne)
  · intro h
    simp only [processDBIPStep]
    split
    · rfl
    · split
      · rfl
      · rw [if_pos]
        by_contra hne
        exact h ((isEmpty_false_iff _).mp (by simpa using hne))

/-- Witness for C1 at a concrete inserted record: a record with only a
country iso code is inserted and satisfies the extended disjunction. -/
theorem noEmptyLeavesAmended_witness :
    processGeoLiteCityStep { Country := { ISOCode := "US" } } none none none none none
      = some { Country := { ISOCode := "US" } } ∧
    codeNonEmpty { Country := { ISOCode := "US" } } := by
  refine ⟨rfl, ?_⟩
  exact (noEmptyLeavesAmended { Country := { ISOCode := "US" } } {} none none none none none none).1
    _ rfl


/-! ## Claim C2: ASN source priority -/

/-- An IPinfo Lite record whose ASN string is nonempty but parses to
number 0. -/
def asZeroPrimary : IPinfoLiteRecord :=
  { ASN := "AS0", ASName := "ZeroNet", ASDomain := "zero.example" }

/-- C2 counterexample: when ASN-Primary covers the address with the
nonempty ASN string AS0 (parsed number 0) and ASN-Secondary covers it
with number 65000, the claim requires the output number to come from
ASN-Secondary, but the code short-circuits at ASN-Primary and emits
number 0 with ASN-Primary's organization and domain. -/
theorem asnPriorityCounterexample :
    (enrichWithASNData (some asZeroPrimary) (some ⟨65000, "SecondOrg"⟩) none {}).ASN
      = ⟨0, "ZeroNet", "zero.example"⟩ ∧
    asZeroPrimary.GetASNumber = 0 ∧
    (⟨65000, "SecondOrg"⟩ : GeoLite2ASNRecord).HasASN = true ∧
    (enrichWithASNData (some asZeroPrimary) (some ⟨65000, "SecondOrg"⟩) none {}).ASN.Number
      ≠ 65000 := by
  refine ⟨rfl, rfl, rfl, by decide⟩

/-- C2 (amended): ASN-Primary wins whenever its ASN string is nonempty
(HasASN), even when the parsed number is 0; otherwise ASN-Secondary
wins when its number is nonzero; otherwise ASN-Tertiary; otherwise the
record is unchanged and (for a fresh record) the asn sub-record is
absent from the emitted map. Each branch copies its whole source
sub-record, so no fields are mixed across sources. -/
theorem asnPriorityAmended (ipinfo : Option IPinfoLiteRecord)
    (geoASN : Option GeoLite2ASNRecord) (rv : Option RouteViewsASNRecord)
    (record : MergedRecord) :
    (∀ r, ipinfo = some r → r.HasASN = true →
      (enrichWithASNData ipinfo geoASN rv record).ASN
        = ⟨r.GetASNumber, r.ASName, r.ASDomain⟩) ∧
    ((∀ r, ipinfo = some r → r.HasASN = false) →
      ∀ g, geoASN = some g → g.HasASN = true →
        (enrichWithASNData ipinfo geoASN rv record).ASN
          = ⟨g.AutonomousSystemNumber, g.AutonomousSystemOrganization, ""⟩) ∧
    ((∀ r, ipinfo = some r → r.HasASN = false) →
      (∀ g, geoASN = some g → g.HasASN = false) →
      ∀ t, rv = some t → t.HasASN = true →
        (enrichWithASNData ipinfo geoASN rv record).ASN
          = ⟨t.AutonomousSystemNumber, t.AutonomousSystemOrganization, ""⟩) ∧
    ((∀ r, ipinfo = some r → r.HasASN = false) →
      (∀ g, geoASN = some g → g.HasASN = false) →
      (∀ t, rv = some t → t.HasASN = false) →
      enrichWithASNData ipinfo geoASN rv record = record) ∧
    (record.ASN = {} →
      (∀ r, ipinfo = some r → r.HasASN = false) →
      (∀ g, geoASN = some g → g.HasASN = false) →
      (∀ t, rv = some t → t.HasASN = false) →
      asnToMMDBType (enrichWithASNData ipinfo geoASN rv record).ASN = none) := by
  have hT : ∀ st : MergedRecord,
      (∀ t, rv = some t → t.HasASN = false) →
      enrichWithASNData.enrichTertiary rv st = st := by
    intro st ht
    cases rv with
    | none => rfl
    | some t =>
      simp only [enrichWithASNData.enrichTertiary]
      rw [if_neg (by simp [ht t rfl])]
  have hS : ∀ st : MergedRecord,
      (∀ g, geoASN = some g → g.HasASN = false) →
      (∀ t, rv = some t → t.HasASN = false) →
      enrichWithASNData.enrichSecondary geoASN rv st = st := by
    intro st hg ht
    cases geoASN with
    | none => exact hT st ht
    | some g =>
      simp only [enrichWithASNData.enrichSecondary]
      rw [if_neg (by simp [hg g rfl])]
      exact hT st ht
  refine ⟨?_, ?_, ?_, ?_, ?_⟩
  · intro r hr hasn
    subst hr
    simp [enrichWithASNData, hasn]
  · intro hmiss g hg hasn
    subst hg
    cases hi : ipinfo with
    | none =>
      simp [enrichWithASNData, enrichWithASNData.enrichSecondary, hasn]
    | some r =>
      simp [enrichWithASNData, enrichWithASNData.enrichSecondary, hmiss r hi, hasn]
  · intro hmiss hg t ht hasn
    subst ht
    have h2 : ∀ st : MergedRecord,
        enrichWithASNData.enrichTertiary (some t) st
          = { st with ASN := ⟨t.AutonomousSystemNumber, t.AutonomousSystemOrganization, ""⟩ } := by
      intro st
      simp [enrichWithASNData.enrichTertiary, hasn]
    cases hi : ipinfo with
    | none =>
      cases hgg : geoASN with
      | none => simp [enrichWithASNData, enrichWithASNData.enrichSecondary, h2]
      | some g =>
        simp [enrichWithASNData, enrichWithASNData.enrichSecondary, hg g hgg, h2]
    | some r =>
      cases hgg : geoASN with
      | none =>
        simp [enrichWithASNData, enrichWithASNData.enrichSecondary, hmiss r hi, h2]
      | some g =>
        simp [enrichWithASNData, enrichWithASNData.enrichSecondary, hmiss r hi, hg g hgg, h2]
  · intro hmiss hg ht
    cases hi : ipinfo with
    | none => exact hS record hg ht
    | some r =>
      simp only [enrichWithASNData]
      rw [if_neg (by simp [hmiss r hi])]
      exact hS record hg ht
  · intro hzero hmiss hg ht
    have h4 : enrichWithASNData ipinfo geoASN rv record = record := by
      cases hi : ipinfo with
      | none => exact hS record hg ht
      | some r =>
        simp only [enrichWithASNData]
        rw [if_neg (by simp [hmiss r hi])]
        exact hS record hg ht
    rw [h4, hzero]
    rfl

/-- Witness for C2 at concrete inputs: a nonzero primary record wins,
and with no source covering, the asn sub-map is absent. -/
theorem asnPriorityAmended_witness :
    (enrichWithASNData (some { ASN := "AS15169", ASName := "GOOGLE", ASDomain := "google.com" })
        (some ⟨65000, "SecondOrg"⟩) none {}).ASN
      = ⟨{ ASN := "AS15169", ASName := "GOOGLE",
           ASDomain := "google.com" : IPinfoLiteRecord }.GetASNumber, "GOOGLE", "google.com"⟩ ∧
    asnToMMDBType (enrichWithASNData none none none {}).ASN = none := by
  constructor
  · exact (asnPriorityAmended (some { ASN := "AS15169", ASName := "GOOGLE", ASDomain := "google.com" })
      (some ⟨65000, "SecondOrg"⟩) none {}).1 _ rfl rfl
  · exact (asnPriorityAmended none none none {}).2.2.2.2 rfl
      (fun r hr => Option.noConfusion hr) (fun g hg => Option.noConfusion hg)
      (fun t ht => Option.noConfusion ht)


/-! ## Claim C3: CN-Localized enrichment -/

/-- mapSet binds the assigned key. -/
theorem mapSet_lookup_self (m : NamesMap) (k v : String) :
    (mapSet m k v).lookup k = some v := by
  induction m with
  | nil => simp [mapSet, List.lookup]
  | cons kv rest ih =>
    simp only [mapSet]
    by_cases hk : (kv.1 == k) = true
    · rw [if_pos hk]
      simp [List.lookup]
    · rw [if_neg hk]
      have hk' : (k == kv.1) = false := by
        rcases hbeq : k == kv.1 with - | -
        · rfl
        · exact absurd (by rw [(beq_iff_eq ..).mp hbeq]; exact beq_self_eq_true kv.1) hk
      simp only [List.lookup, hk']
      exact ih

/-- The QQWry record of the counterexample: a Chinese lookup result for
Nanjing, Jiangsu. -/
def qqNanjing : QQWryRecord :=
  { CountryName := "中国", RegionName := "江苏省", CityName := "南京市", CountryCode := "CN" }

/-- The merged record of the counterexample: GeoLite2-City already
supplied zh-CN names for the country and the city. -/
def cnSeedRecord : MergedRecord :=
  { Country := { ISOCode := "CN", Names := [("zh-CN", "中国")] },
    City := { Names := [("zh-CN", "北京")] } }

/-- C3 counterexample: a zh-CN city name already supplied by Geo-City
is replaced by the QQWry city name, not preserved. -/
theorem cnAdditivityCounterexample :
    (enrichWithQQWryData (some qqNanjing) cnSeedRecord).City.Names.lookup "zh-CN"
      = some "南京市" ∧
    cnSeedRecord.City.Names.lookup "zh-CN" = some "北京" ∧
    ("南京市" : String) ≠ "北京" := by
  refine ⟨rfl, rfl, by decide⟩

/-- The city stage leaves the Country sub-record unchanged. -/
theorem qqwryCityStage_Country (q : QQWryRecord) (r : MergedRecord) :
    (qqwryCityStage q r).Country = r.Country := by
  unfold qqwryCityStage
  split <;> rfl

/-- With city data, the city stage assigns the zh-CN city name. -/
theorem qqwryCityStage_city_true (q : QQWryRecord) (r : MergedRecord)
    (h : q.HasCityData = true) :
    (qqwryCityStage q r).City.Names = mapSet r.City.Names "zh-CN" q.CityName := by
  unfold qqwryCityStage
  rw [if_pos h]

/-- Without city data, the city stage is the identity. -/
theorem qqwryCityStage_city_false (q : QQWryRecord) (r : MergedRecord)
    (h : q.HasCityData = false) :
    qqwryCityStage q r = r := by
  unfold qqwryCityStage
  rw [if_neg (by simp [h])]

/-- The region stage changes only the Subdivisions field. -/
theorem qqwryRegionStage_frame (q : QQWryRecord) (r : MergedRecord) :
    (qqwryRegionStage q r).Country = r.Country ∧
    (qqwryRegionStage q r).City = r.City := by
  unfold qqwryRegionStage
  split
  · cases r.Subdivisions <;> exact ⟨rfl, rfl⟩
  · exact ⟨rfl, rfl⟩

/-- The country stage leaves the City sub-record unchanged. -/
theorem qqwryCountryStage_City (q : QQWryRecord) (r : MergedRecord) :
    (qqwryCountryStage q r).City = r.City := by
  unfold qqwryCountryStage
  split <;> rfl

/-- The city stage leaves the Subdivisions slice unchanged. -/
theorem qqwryCityStage_Subdivisions (q : QQWryRecord) (r : MergedRecord) :
    (qqwryCityStage q r).Subdivisions = r.Subdivisions := by
  unfold qqwryCityStage
  split <;> rfl

/-- The country stage leaves the Subdivisions slice unchanged. -/
theorem qqwryCountryStage_Subdivisions (q : QQWryRecord) (r : MergedRecord) :
    (qqwryCountryStage q r).Subdivisions = r.Subdivisions := by
  unfold qqwryCountryStage
  split <;> rfl

/-- With region data, the region stage assigns the zh-CN name on the
first subdivision, creating one when none exists. -/
theorem qqwryRegionStage_subs_true (q : QQWryRecord) (r : MergedRecord)
    (h : q.HasRegionData = true) :
    (qqwryRegionStage q r).Subdivisions =
      (match r.Subdivisions with
       | [] => [{ Names := [("zh-CN", q.RegionName)] }]
       | s0 :: rest =>
         { s0 with Names := mapSet s0.Names "zh-CN" q.RegionName } :: rest) := by
  unfold qqwryRegionStage
  rw [if_pos h]
  cases r.Subdivisions <;> rfl

/-- Without region data, the region stage is the identity. -/
theorem qqwryRegionStage_subs_false (q : QQWryRecord) (r : MergedRecord)
    (h : q.HasRegionData = false) :
    qqwryRegionStage q r = r := by
  unfold qqwryRegionStage
  rw [if_neg (by simp [h])]

/-- C3 (amended): for a merged record with country iso CN and a QQWry
record for China covering the address, the enrichment adds a zh-CN
entry to the country name map only when none is present and never
replaces an existing zh-CN country name; but the zh-CN city name and
first-subdivision region name are assigned unconditionally whenever
QQWry has city (respectively region) data, overwriting any existing
zh-CN value (a subdivision is created when none exists); without city
(region) data the city names (subdivisions) are left unchanged. -/
theorem cnEnrichmentAmended (record : MergedRecord) (q : QQWryRecord)
    (hcn : record.Country.ISOCode = "CN") (hgeo : q.HasGeoData = true)
    (hchina : q.IsChina = true) :
    ((record.Country.Names.lookup "zh-CN").isSome →
      (enrichWithQQWryData (some q) record).Country.Names = record.Country.Names) ∧
    (record.Country.Names.lookup "zh-CN" = none →
      (enrichWithQQWryData (some q) record).Country.Names =
        mapSet record.Country.Names "zh-CN" q.CountryName) ∧
    (q.HasCityData = true →
      (enrichWithQQWryData (some q) record).City.Names =
        mapSet record.City.Names "zh-CN" q.CityName ∧
      (enrichWithQQWryData (some q) record).City.Names.lookup "zh-CN" = some q.CityName) ∧
    (q.HasCityData = false →
      (enrichWithQQWryData (some q) record).City.Names = record.City.Names) ∧
    (q.HasRegionData = true →
      (enrichWithQQWryData (some q) record).Subdivisions =
        (match record.Subdivisions with
         | [] => [{ Names := [("zh-CN", q.RegionName)] }]
         | s0 :: rest =>
           { s0 with Names := mapSet s0.Names "zh-CN" q.RegionName } :: rest) ∧
      ((enrichWithQQWryData (some q) record).Subdivisions.head?.map
          (fun s => s.Names.lookup "zh-CN")) = some (some q.RegionName)) ∧
    (q.HasRegionData = false →
      (enrichWithQQWryData (some q) record).Subdivisions = record.Subdivisions) := by
  have hmain : enrichWithQQWryData (some q) record
      = qqwryCountryStage q (qqwryRegionStage q (qqwryCityStage q record)) := by
    simp [enrichWithQQWryData, hcn, hgeo, hchina]
  have h2C : (qqwryRegionStage q (qqwryCityStage q record)).Country = record.Country :=
    (qqwryRegionStage_frame q _).1.trans (qqwryCityStage_Country q record)
  have h2City : (qqwryRegionStage q (qqwryCityStage q record)).City
      = (qqwryCityStage q record).City :=
    (qqwryRegionStage_frame q _).2
  have hsubs : (enrichWithQQWryData (some q) record).Subdivisions
      = (qqwryRegionStage q (qqwryCityStage q record)).Subdivisions := by
    rw [hmain, qqwryCountryStage_Subdivisions]
  refine ⟨?_, ?_, ?_, ?_, ?_, ?_⟩
  · intro hsome
    rw [hmain]
    unfold qqwryCountryStage
    rw [if_pos (by rw [h2C]; exact hsome)]
    rw [h2C]
  · intro hnone
    rw [hmain]
    unfold qqwryCountryStage
    rw [if_neg (by rw [h2C, hnone]; simp)]
    simp only [h2C]
  · intro hcity
    have hC : (enrichWithQQWryData (some q) record).City.Names
        = mapSet record.City.Names "zh-CN" q.CityName := by
      rw [hmain]
      have := qqwryCountryStage_City q (qqwryRegionStage q (qqwryCityStage q record))
      rw [show (qqwryCountryStage q (qqwryRegionStage q (qqwryCityStage q record))).City.Names
            = (qqwryRegionStage q (qqwryCityStage q record)).City.Names from by rw [this]]
      rw [h2City, qqwryCityStage_city_true q record hcity]
    exact ⟨hC, by rw [hC]; exact mapSet_lookup_self _ _ _⟩
  · intro hcity
    rw [hmain]
    have := qqwryCountryStage_City q (qqwryRegionStage q (qqwryCityStage q record))
    rw [show (qqwryCountryStage q (qqwryRegionStage q (qqwryCityStage q record))).City.Names
          = (qqwryRegionStage q (qqwryCityStage q record)).City.Names from by rw [this]]
    rw [h2City, qqwryCityStage_city_false q record hcity]
  · intro hreg
    have hS : (enrichWithQQWryData (some q) record).Subdivisions =
        (match record.Subdivisions with
         | [] => [{ Names := [("zh-CN", q.RegionName)] }]
         | s0 :: rest =>
           { s0 with Names := mapSet s0.Names "zh-CN" q.RegionName } :: rest) := by
      rw [hsubs, qqwryRegionStage_subs_true q _ hreg, qqwryCityStage_Subdivisions]
    refine ⟨hS, ?_⟩
    rw [hS]
    cases record.Subdivisions with
    | nil => exact congrArg some (mapSet_lookup_self [] "zh-CN" q.RegionName)
    | cons s0 rest => exact congrArg some (mapSet_lookup_self s0.Names "zh-CN" q.RegionName)
  · intro hreg
    rw [hsubs, qqwryRegionStage_subs_false q _ hreg, qqwryCityStage_Subdivisions]

/-- Witness for C3 at the concrete counterexample inputs: the existing
zh-CN country name is preserved, the city name is overwritten, and a
subdivision carrying the zh-CN region name is created. -/
theorem cnEnrichmentAmended_witness :
    (enrichWithQQWryData (some qqNanjing) cnSeedRecord).Country.Names
      = cnSeedRecord.Country.Names ∧
    (enrichWithQQWryData (some qqNanjing) cnSeedRecord).City.Names
      = mapSet cnSeedRecord.City.Names "zh-CN" qqNanjing.CityName ∧
    (enrichWithQQWryData (some qqNanjing) cnSeedRecord).Subdivisions
      = [{ Names := [("zh-CN", qqNanjing.RegionName)] }] := by
  refine ⟨?_, ?_, ?_⟩
  · exact (cnEnrichmentAmended cnSeedRecord qqNanjing rfl rfl rfl).1 (by decide)
  · exact ((cnEnrichmentAmended cnSeedRecord qqNanjing rfl rfl rfl).2.2.1 rfl).1
  · exact ((cnEnrichmentAmended cnSeedRecord qqNanjing rfl rfl rfl).2.2.2.2.1 rfl).1


/-! ## Claims C6 and C9: the worker's proxy enrichment and ASN cache -/

/-- The worker ASN enrichment never touches the Proxy field. -/
theorem enrichWithASNDataW_Proxy (st : WState) (ip : NAddr)
    (ipinfo : Option IPinfoLiteRecord) (geoASN : Option GeoLite2ASNRecord)
    (rv : Option RouteViewsASNRecord) (record : MergedRecord) :
    (enrichWithASNDataW st ip ipinfo geoASN rv record).2.Proxy = record.Proxy := by
  cases ipinfo <;> cases geoASN <;> cases rv <;>
    simp only [enrichWithASNDataW, enrichWithASNDataW.secondary,
      enrichWithASNDataW.tertiary] <;>
    split_ifs <;> rfl

/-- The country fallback never touches the Proxy field. -/
theorem enrichWithCountryFallback_Proxy (gw : Option GeoWhoisCountryRecord)
    (record : MergedRecord) :
    (enrichWithCountryFallback gw record).Proxy = record.Proxy := by
  cases gw <;> simp only [enrichWithCountryFallback] <;> split_ifs <;> rfl

/-- The city stage never touches the Proxy field. -/
theorem qqwryCityStage_Proxy (q : QQWryRecord) (r : MergedRecord) :
    (qqwryCityStage q r).Proxy = r.Proxy := by
  unfold qqwryCityStage
  split <;> rfl

/-- The region stage never touches the Proxy field. -/
theorem qqwryRegionStage_Proxy (q : QQWryRecord) (r : MergedRecord) :
    (qqwryRegionStage q r).Proxy = r.Proxy := by
  unfold qqwryRegionStage
  split
  · cases r.Subdivisions <;> rfl
  · rfl

/-- The country stage never touches the Proxy field. -/
theorem qqwryCountryStage_Proxy (q : QQWryRecord) (r : MergedRecord) :
    (qqwryCountryStage q r).Proxy = r.Proxy := by
  unfold qqwryCountryStage
  split <;> rfl

/-- The QQWry enrichment never touches the Proxy field. -/
theorem enrichWithQQWryData_Proxy (qq : Option QQWryRecord) (record : MergedRecord) :
    (enrichWithQQWryData qq record).Proxy = record.Proxy := by
  cases qq with
  | none => simp only [enrichWithQQWryData]; split <;> rfl
  | some q =>
    simp only [enrichWithQQWryData]
    split
    · rfl
    · split_ifs with h1 h2
      · rfl
      · rfl
      · rw [qqwryCountryStage_Proxy, qqwryRegionStage_Proxy, qqwryCityStage_Proxy]

/-- C6: the worker's Pass-1 record builder applies the Proxy enricher
unconditionally: for all worker states and all geo, ASN, country and
QQWry lookup outcomes, the built record's Proxy field is exactly the
flag set delivered by the Proxy-List point lookup at the prefix's
address ({} when the lookup misses), independently of every other
enrichment outcome. -/
theorem proxyEnrichedUnconditionally (st : WState) (ip : NAddr)
    (geo : GeoLite2CityRecord) (ipinfo : Option IPinfoLiteRecord)
    (geoASN : Option GeoLite2ASNRecord) (rv : Option RouteViewsASNRecord)
    (gw : Option GeoWhoisCountryRecord) (qq : Option QQWryRecord)
    (singleIPs : List (NAddr × OpenproxyDBRecord)) (cidr : List CidrEntry) :
    (workerBuildMergedRecord st ip geo ipinfo geoASN rv gw qq singleIPs cidr).2.Proxy =
      (match proxyLookupTo singleIPs cidr ip with
       | some p => ⟨p.IsProxy, p.IsVPN, p.IsTor, p.IsHosting, p.IsCDN, p.IsSchool, p.IsAnonymous⟩
       | none => {}) := by
  unfold workerBuildMergedRecord
  cases hL : proxyLookupTo singleIPs cidr ip with
  | none =>
    simp only [enrichWithProxyData, hL]
    rw [enrichWithQQWryData_Proxy, enrichWithCountryFallback_Proxy]
    have hw := enrichWithASNDataW_Proxy st ip ipinfo geoASN rv
      (if geo.HasGeoData then
        { City := ⟨geo.City.GeonameID, geo.City.Names⟩
          Continent := ⟨geo.Continent.Code, geo.Continent.GeonameID, geo.Continent.Names⟩
          Country := ⟨geo.Country.GeonameID, geo.Country.ISOCode, geo.Country.Names⟩
          Location :=
            ⟨geo.Location.AccuracyRadius, geo.Location.Latitude, geo.Location.Longitude,
             geo.Location.MetroCode, geo.Location.TimeZone, geo.HasLocationData⟩
          Postal := ⟨geo.Postal.Code⟩
          RegisteredCountry :=
            ⟨geo.RegisteredCountry.GeonameID, geo.RegisteredCountry.ISOCode,
             geo.RegisteredCountry.Names⟩
          Subdivisions :=
            geo.Subdivisions.map (fun sub => ⟨sub.GeonameID, sub.ISOCode, sub.Names⟩) }
       else {})
    rw [hw]
    split <;> rfl
  | some p => simp only [enrichWithProxyData, hL]


/-- C9: the worker's single-entry ASN cache can never hit. The code
never assigns cachedASNNetwork, so from any state reachable from a
fresh worker context the hit test is false, the state after a call
still has no cached network, and every call behaves exactly like the
cache-less three-source lookup chain (the claimed reuse of the cached
record for a second address inside the same ASN prefix never
happens). -/
theorem asnCacheNeverHits (st : WState) (h : st.cachedASNNetwork = none)
    (ip : NAddr) (ipinfo : Option IPinfoLiteRecord)
    (geoASN : Option GeoLite2ASNRecord) (rv : Option RouteViewsASNRecord)
    (record : MergedRecord) :
    (enrichWithASNDataW st ip ipinfo geoASN rv record).1.cachedASNNetwork = none ∧
    (enrichWithASNDataW st ip ipinfo geoASN rv record).2
      = enrichWithASNData ipinfo geoASN rv record := by
  have hcond : (st.cachedASNValid &&
      (match st.cachedASNNetwork with
       | some n => cidrContains n ip
       | none => false)) = false := by
    rw [h]
    simp
  cases ipinfo <;> cases geoASN <;> cases rv <;>
    simp only [enrichWithASNDataW, enrichWithASNDataW.secondary,
      enrichWithASNDataW.tertiary, enrichWithASNData,
      enrichWithASNData.enrichSecondary, enrichWithASNData.enrichTertiary,
      hcond, Bool.false_eq_true, if_false] <;>
    (try split_ifs) <;> simp

/-- Witness for C9: a fresh worker context has no cached network, and
a call covered by ASN-Primary still performs the fresh lookup chain. -/
theorem asnCacheNeverHits_witness :
    ({} : WState).cachedASNNetwork = none ∧
    (enrichWithASNDataW {} ⟨false, 16843009⟩
        (some { ASN := "AS13335", ASName := "CLOUDFLARENET", ASDomain := "cloudflare.com" })
        none none {}).2
      = enrichWithASNData
          (some { ASN := "AS13335", ASName := "CLOUDFLARENET", ASDomain := "cloudflare.com" })
          none none {} := by
  exact ⟨rfl, (asnCacheNeverHits {} rfl ⟨false, 16843009⟩
    (some { ASN := "AS13335", ASName := "CLOUDFLARENET", ASDomain := "cloudflare.com" })
    none none {}).2⟩


/-! ## Claim C5: proxy point-lookup priority -/

/-- Characterization of the naive forward scan: the result is the
starting accumulator or a containing entry of the list, its bit count
dominates every containing entry of the list, and the accumulator's
bit count never decreases. -/
theorem scanFwd_spec (a : NAddr) (l : List CidrEntry) (best : Option CidrEntry) :
    (scanFwd a l best = best ∨
      ∃ e, scanFwd a l best = some e ∧ e ∈ l ∧ cidrContains e.pfx a = true) ∧
    (∀ f ∈ l, cidrContains f.pfx a = true →
      (f.pfx.bits : Int) ≤ scanFwd.bestBitsOf (scanFwd a l best)) ∧
    scanFwd.bestBitsOf best ≤ scanFwd.bestBitsOf (scanFwd a l best) := by
  induction l generalizing best with
  | nil => exact ⟨Or.inl rfl, by simp [scanFwd], by simp [scanFwd]⟩
  | cons e rest ih =>
    have hstep : scanFwd a (e :: rest) best =
        scanFwd a rest
          (if cidrContains e.pfx a && decide (scanFwd.bestBitsOf best < (e.pfx.bits : Int))
           then some e else best) := rfl
    set best' :=
      (if cidrContains e.pfx a && decide (scanFwd.bestBitsOf best < (e.pfx.bits : Int))
       then some e else best) with hbest'
    obtain ⟨ih1, ih2, ih3⟩ := ih best'
    have hmono : scanFwd.bestBitsOf best ≤ scanFwd.bestBitsOf best' := by
      rw [hbest']
      split
      · rename_i hcnd
        have := (Bool.and_eq_true ..).mp hcnd
        have hlt := of_decide_eq_true this.2
        exact le_of_lt hlt
      · exact le_refl _
    refine ⟨?_, ?_, ?_⟩
    · rw [hstep]
      rcases ih1 with h1 | ⟨e', he', hmem, hcont⟩
      · rw [h1, hbest']
        split
        · rename_i hcnd
          have := (Bool.and_eq_true ..).mp hcnd
          exact Or.inr ⟨e, rfl, List.mem_cons_self .., this.1⟩
        · exact Or.inl rfl
      · exact Or.inr ⟨e', he', List.mem_cons_of_mem _ hmem, hcont⟩
    · intro f hf hcont
      rw [hstep]
      rcases List.mem_cons.mp hf with rfl | hmem
      · by_cases hcnd : (cidrContains f.pfx a &&
            decide (scanFwd.bestBitsOf best < (f.pfx.bits : Int))) = true
        · have hup : best' = some f := by rw [hbest', if_pos hcnd]
          refine le_trans ?_ ih3
          rw [hup]
          exact le_refl _
        · have hnlt : ¬ (scanFwd.bestBitsOf best < (f.pfx.bits : Int)) := by
            intro hlt
            exact hcnd ((Bool.and_eq_true ..).mpr ⟨hcont, decide_eq_true hlt⟩)
          refine le_trans (le_trans (not_lt.mp hnlt) hmono) ih3
      · exact ih2 f hmem hcont
    · rw [hstep]
      exact le_trans hmono ih3

/-- C5: in the Proxy-List point lookup, an exact single-IP entry for
the (unmapped) address wins regardless of any containing CIDR row;
otherwise the record of a containing CIDR row of maximal bit length is
returned; otherwise the lookup reports not-found. -/
theorem proxyLookupPriority (single : List (NAddr × OpenproxyDBRecord))
    (cidr : List CidrEntry) (a : NAddr) :
    (∀ r, single.lookup a = some r → proxyLookupTo single cidr a = some r) ∧
    (single.lookup a = none → (∀ e ∈ cidr, cidrContains e.pfx a = false) →
      proxyLookupTo single cidr a = none) ∧
    (single.lookup a = none → ∀ m ∈ cidr, cidrContains m.pfx a = true →
      ∃ e, e ∈ cidr ∧ cidrContains e.pfx a = true ∧
        (∀ f ∈ cidr, cidrContains f.pfx a = true → f.pfx.bits ≤ e.pfx.bits) ∧
        proxyLookupTo single cidr a = some e.record) := by
  refine ⟨?_, ?_, ?_⟩
  · intro r h
    simp only [proxyLookupTo, h]
  · intro hs hnone
    obtain ⟨h1, -, -⟩ := scanFwd_spec a cidr none
    rcases h1 with h1 | ⟨e, -, hmem, hcont⟩
    · simp only [proxyLookupTo, hs, findInCIDRGo, h1]
      rfl
    · exact absurd hcont (by simp [hnone e hmem])
  · intro hs m hmem hcont
    obtain ⟨h1, h2, -⟩ := scanFwd_spec a cidr none
    rcases h1 with h1 | ⟨e, he, hemem, hecont⟩
    · exfalso
      have := h2 m hmem hcont
      rw [h1] at this
      simp only [scanFwd.bestBitsOf] at this
      omega
    · refine ⟨e, hemem, hecont, ?_, ?_⟩
      · intro f hf hfcont
        have := h2 f hf hfcont
        rw [he] at this
        simp only [scanFwd.bestBitsOf] at this
        exact_mod_cast this
      · simp only [proxyLookupTo, hs, findInCIDRGo, he]
        rfl

/-- Witness for C5 at the spec's scenario 6: a single-IP tor entry at
203.0.113.7 overrides the covering webhost CIDR 203.0.113.0/24, and
inside the CIDR without a single-IP entry the /24 row (the unique,
hence most specific, containing row) is returned. -/
theorem proxyLookupPriority_witness :
    proxyLookupTo
        [(⟨false, 3405803783⟩, { IsTor := true, IsAnonymous := true })]
        [⟨⟨⟨false, 3405803776⟩, 24⟩, { IsHosting := true }⟩]
        ⟨false, 3405803783⟩
      = some { IsTor := true, IsAnonymous := true } ∧
    proxyLookupTo
        [(⟨false, 3405803783⟩, { IsTor := true, IsAnonymous := true })]
        [⟨⟨⟨false, 3405803776⟩, 24⟩, { IsHosting := true }⟩]
        ⟨false, 3405803779⟩
      = some ({ IsHosting := true } : OpenproxyDBRecord) := by
  constructor
  · exact (proxyLookupPriority
      [(⟨false, 3405803783⟩, { IsTor := true, IsAnonymous := true })]
      [⟨⟨⟨false, 3405803776⟩, 24⟩, { IsHosting := true }⟩]
      ⟨false, 3405803783⟩).1 _ rfl
  · obtain ⟨e, hmem, -, -, hres⟩ := (proxyLookupPriority
      [(⟨false, 3405803783⟩, { IsTor := true, IsAnonymous := true })]
      [⟨⟨⟨false, 3405803776⟩, 24⟩, { IsHosting := true }⟩]
      ⟨false, 3405803779⟩).2.2 rfl
      ⟨⟨⟨false, 3405803776⟩, 24⟩, { IsHosting := true }⟩ (List.mem_singleton.mpr rfl)
      (by decide)
    rw [hres]
    rcases List.mem_singleton.mp hmem with rfl
    rfl


/-! ## Claim C10: equivalence of the naive and optimized findInCIDR

The order and arithmetic toolkit for masked prefixes. -/

/-- The strict address order is irreflexive. -/
theorem addrLt_irrefl (x : NAddr) : addrLt x x = false := by
  cases x with
  | mk i v => cases i <;> simp [addrLt]

/-- The strict address order is transitive. -/
theorem addrLt_trans {x y z : NAddr} (h1 : addrLt x y = true)
    (h2 : addrLt y z = true) : addrLt x z = true := by
  cases x with
  | mk xi xv =>
    cases y with
    | mk yi yv =>
      cases z with
      | mk zi zv =>
        cases xi <;> cases yi <;> cases zi <;>
          simp_all [addrLt] <;> omega

/-- Trichotomy for the address order: not-less means greater or
equal. -/
theorem addrLt_false_iff {x y : NAddr} :
    addrLt x y = false ↔ (addrLt y x = true ∨ x = y) := by
  cases x with
  | mk xi xv =>
    cases y with
    | mk yi yv =>
      cases xi <;> cases yi <;> simp [addrLt, NAddr.mk.injEq] <;> omega

/-- The reflexive closure of the address order. -/
def addrLeP (x y : NAddr) : Prop := addrLt x y = true ∨ x = y

/-- The reflexive closure is transitive. -/
theorem addrLeP_trans {x y z : NAddr} (h1 : addrLeP x y) (h2 : addrLeP y z) :
    addrLeP x z := by
  rcases h1 with h1 | rfl
  · rcases h2 with h2 | rfl
    · exact Or.inl (addrLt_trans h1 h2)
    · exact Or.inl h1
  · exact h2

/-- The reflexive closure is antisymmetric. -/
theorem addrLeP_antisymm {x y : NAddr} (h1 : addrLeP x y) (h2 : addrLeP y x) :
    x = y := by
  rcases h1 with h1 | rfl
  · rcases h2 with h2 | rfl
    · exact absurd (addrLt_trans h1 h2) (by simp [addrLt_irrefl])
    · rfl
  · rfl

/-- A sorted-below entry bounds the address. -/
theorem entrySortedLe_addrLeP {u v : CidrEntry} (h : entrySortedLe u v) :
    addrLeP u.pfx.addr v.pfx.addr := by
  rcases h with h | ⟨h, -⟩
  · exact Or.inl h
  · exact Or.inr h

/-- Bitwise OR of a multiple of 2^h with the low mask 2^h - 1 is plain
addition. -/
theorem or_mask_of_dvd {h x : Nat} (hd : 2 ^ h ∣ x) :
    x ||| (2 ^ h - 1) = x + (2 ^ h - 1) := by
  induction h generalizing x with
  | zero => simp
  | succ h ih =>
    obtain ⟨q, rfl⟩ := hd
    have hone : (1 : Nat) ≤ 2 ^ h := Nat.one_le_two_pow
    have hpow : 2 ^ (h + 1) = 2 ^ h * 2 := pow_succ 2 h
    set y := 2 ^ h * q with hy
    have hx2 : 2 ^ (h + 1) * q = 2 * y := by rw [hy, hpow]; ring
    have hm : 2 ^ (h + 1) - 1 = 2 * (2 ^ h - 1) + 1 := by omega
    set n := 2 ^ (h + 1) * q ||| (2 ^ (h + 1) - 1) with hn
    have hdiv : n / 2 = y ||| (2 ^ h - 1) := by
      rw [hn, Nat.or_div_two]
      congr 1
      · omega
      · omega
    have hmod : n % 2 = 1 := by
      rw [hn]
      refine Nat.or_mod_two_eq_one.mpr (Or.inr ?_)
      omega
    have hih : y ||| (2 ^ h - 1) = y + (2 ^ h - 1) := ih (Dvd.intro q rfl)
    have hsum := Nat.div_add_mod n 2
    rw [hdiv, hmod, hih] at hsum
    rw [← hsum, hx2]
    omega



/-- The start value of a masked CIDR containing an address is the
address with its host bits cleared. -/
theorem masked_start_val {p : Cidr} (hm : p.Masked) {a : NAddr}
    (hc : cidrContains p a = true) :
    p.addr.val = a.val - a.val % 2 ^ p.hostBits := by
  obtain ⟨q, hq⟩ := hm
  have hpos : 0 < 2 ^ p.hostBits := Nat.two_pow_pos _
  rcases (Bool.and_eq_true ..).mp hc with ⟨-, hdiv⟩
  have hdiv' : a.val / 2 ^ p.hostBits = p.addr.val / 2 ^ p.hostBits :=
    of_decide_eq_true hdiv
  have hqv : p.addr.val / 2 ^ p.hostBits = q := by
    rw [hq, Nat.mul_div_cancel_left q hpos]
  have hdm := Nat.div_add_mod a.val (2 ^ p.hostBits)
  have hp : p.addr.val = 2 ^ p.hostBits * (a.val / 2 ^ p.hostBits) := by
    rw [hq, hdiv', hqv]
  omega

/-- A masked CIDR containing an address has the same family. -/
theorem contains_is6 {p : Cidr} {a : NAddr} (hc : cidrContains p a = true) :
    p.addr.is6 = a.is6 := by
  rcases (Bool.and_eq_true ..).mp hc with ⟨hfam, -⟩
  exact eq_of_beq hfam

/-- A masked CIDR containing an address starts at or below it. -/
theorem start_le_of_contains {p : Cidr} (hm : p.Masked) {a : NAddr}
    (hc : cidrContains p a = true) : p.addr.val ≤ a.val := by
  have hv := masked_start_val hm hc
  have hle : a.val % 2 ^ p.hostBits ≤ a.val := Nat.mod_le _ _
  omega

/-- A contained address lies at or below the last address of a masked
CIDR. -/
theorem le_lastAddr_of_contains {p : Cidr} (hm : p.Masked) {a : NAddr}
    (hc : cidrContains p a = true) :
    a.val ≤ p.addr.val + 2 ^ p.hostBits - 1 := by
  have hv := masked_start_val hm hc
  have hpos : 0 < 2 ^ p.hostBits := Nat.two_pow_pos _
  have hmod : a.val % 2 ^ p.hostBits < 2 ^ p.hostBits := Nat.mod_lt _ hpos
  have hle : a.val % 2 ^ p.hostBits ≤ a.val := Nat.mod_le _ _
  omega

/-- Range membership implies containment for a masked CIDR. -/
theorem contains_of_range {p : Cidr} (hm : p.Masked) {a : NAddr}
    (hfam : p.addr.is6 = a.is6) (hlo : p.addr.val ≤ a.val)
    (hhi : a.val ≤ p.addr.val + 2 ^ p.hostBits - 1) :
    cidrContains p a = true := by
  obtain ⟨q, hq⟩ := hm
  have hpos : 0 < 2 ^ p.hostBits := Nat.two_pow_pos _
  refine (Bool.and_eq_true ..).mpr ⟨by simp [hfam], decide_eq_true ?_⟩
  have hqv : p.addr.val / 2 ^ p.hostBits = q := by
    rw [hq, Nat.mul_div_cancel_left q hpos]
  rw [hqv]
  refine Nat.div_eq_of_lt_le ?_ ?_
  · have hcomm : q * 2 ^ p.hostBits = 2 ^ p.hostBits * q := Nat.mul_comm ..
    omega
  · have hcomm : (q + 1) * 2 ^ p.hostBits = 2 ^ p.hostBits * q + 2 ^ p.hostBits := by
      ring
    omega

/-- The last address of a masked CIDR as an explicit pair. -/
theorem lastAddrInCidr_eq {p : Cidr} (hm : p.Masked) :
    lastAddrInCidr p = ⟨p.addr.is6, p.addr.val + 2 ^ p.hostBits - 1⟩ := by
  unfold lastAddrInCidr
  rw [or_mask_of_dvd hm]
  congr 1
  have h1 : (1 : Nat) ≤ 2 ^ p.hostBits := Nat.one_le_two_pow
  omega

/-- An address below a masked CIDR's start is not contained in it. -/
theorem not_contains_of_lt_start {p : Cidr} (hm : p.Masked) {a : NAddr}
    (h : addrLt a p.addr = true) : cidrContains p a = false := by
  by_contra hc
  simp only [Bool.not_eq_false] at hc
  have hfam := contains_is6 hc
  have hlo := start_le_of_contains hm hc
  have hlt : a.val < p.addr.val := by
    rcases (Bool.or_eq_true ..).mp h with h1 | h2
    · rcases (Bool.and_eq_true ..).mp h1 with ⟨hna, hpi⟩
      simp_all
    · rcases (Bool.and_eq_true ..).mp h2 with ⟨-, hlt⟩
      exact of_decide_eq_true hlt
  omega

/-- A contained address does not lie beyond a masked CIDR's last
address. -/
theorem not_lastAddr_lt_of_contains {p : Cidr} (hm : p.Masked) {a : NAddr}
    (hc : cidrContains p a = true) :
    addrLt (lastAddrInCidr p) a = false := by
  have hfam := contains_is6 hc
  have hhi := le_lastAddr_of_contains hm hc
  rw [lastAddrInCidr_eq hm]
  simp only [addrLt, hfam]
  cases a.is6 <;> simp <;> omega

/-- Two masked CIDRs with equal bit length containing a common address
are identical. -/
theorem contains_eq_of_bits_eq {p q : Cidr} (hmp : p.Masked) (hmq : q.Masked)
    {a : NAddr} (hcp : cidrContains p a = true) (hcq : cidrContains q a = true)
    (hb : p.bits = q.bits) : p = q := by
  have hfp := contains_is6 hcp
  have hfq := contains_is6 hcq
  have hfam : p.addr.is6 = q.addr.is6 := by rw [hfp, hfq]
  have hh : p.hostBits = q.hostBits := by
    unfold Cidr.hostBits NAddr.width
    rw [hfam, hb]
  have hvp := masked_start_val hmp hcp
  have hvq := masked_start_val hmq hcq
  have hveq : p.addr.val = q.addr.val := by rw [hvp, hvq, hh]
  have haddr : p.addr = q.addr := by
    cases hpa : p.addr
    cases hqa : q.addr
    rw [hpa, hqa] at hfam hveq
    simp_all
  cases p
  cases q
  simp_all

/-- Of two masked CIDRs containing a common address, the one with
fewer host bits (more specific) starts no earlier. -/
theorem start_le_of_hostBits_le {p q : Cidr} (hmp : p.Masked) (hmq : q.Masked)
    {a : NAddr} (hcp : cidrContains p a = true) (hcq : cidrContains q a = true)
    (hh : q.hostBits ≤ p.hostBits) : p.addr.val ≤ q.addr.val := by
  have hvp := masked_start_val hmp hcp
  have hvq := masked_start_val hmq hcq
  have hdvd : 2 ^ q.hostBits ∣ 2 ^ p.hostBits := pow_dvd_pow 2 hh
  have hmm : a.val % 2 ^ q.hostBits ≤ a.val % 2 ^ p.hostBits := by
    rw [← Nat.mod_mod_of_dvd a.val hdvd]
    exact Nat.mod_le _ _
  have hle : a.val % 2 ^ p.hostBits ≤ a.val := Nat.mod_le _ _
  omega


/-- Widths agree for same-family addresses. -/
theorem width_eq_of_is6_eq {x y : NAddr} (h : x.is6 = y.is6) :
    x.width = y.width := by
  unfold NAddr.width
  rw [h]

/-- The early-break soundness lemma: once the backward scan holds a
containing match b and reaches an entry x sorted at or above every
remaining entry whose last address lies strictly below the target,
no remaining containing entry f can beat b's bit length. -/
theorem breakLemma {f x b : CidrEntry} {a : NAddr}
    (hmf : f.pfx.Masked) (hmx : x.pfx.Masked) (hmb : b.pfx.Masked)
    (hcf : cidrContains f.pfx a = true) (hcb : cidrContains b.pfx a = true)
    (hfx : entrySortedLe f x) (hxb : entrySortedLe x b)
    (hbreak : addrLt (lastAddrInCidr x.pfx) a = true) :
    f.pfx.bits ≤ b.pfx.bits := by
  by_contra hgt
  push_neg at hgt
  have hff := contains_is6 hcf
  have hfb := contains_is6 hcb
  have hwfb : f.pfx.addr.width = b.pfx.addr.width :=
    width_eq_of_is6_eq (hff.trans hfb.symm)
  have hhfb : f.pfx.hostBits ≤ b.pfx.hostBits := by
    unfold Cidr.hostBits
    rw [hwfb]
    omega
  have hble : b.pfx.addr.val ≤ f.pfx.addr.val :=
    start_le_of_hostBits_le hmb hmf hcb hcf hhfb
  have hbf : addrLeP b.pfx.addr f.pfx.addr := by
    rcases Nat.lt_or_ge b.pfx.addr.val f.pfx.addr.val with hlt | hge
    · refine Or.inl ?_
      simp only [addrLt]
      rw [hfb.trans hff.symm]
      cases f.pfx.addr.is6 <;> simp_all
    · have hveq : b.pfx.addr.val = f.pfx.addr.val := by omega
      refine Or.inr ?_
      cases hba : b.pfx.addr
      cases hfa : f.pfx.addr
      have h1 := hfb.trans hff.symm
      rw [hba, hfa] at h1 hveq
      simp_all
  have hfxa := entrySortedLe_addrLeP hfx
  have hxba := entrySortedLe_addrLeP hxb
  have hfxaddr : f.pfx.addr = x.pfx.addr :=
    addrLeP_antisymm hfxa (addrLeP_trans hxba hbf)
  have hxbits : x.pfx.bits ≤ f.pfx.bits := by
    rcases hfx with hlt | ⟨-, hle⟩
    · rw [hfxaddr] at hlt
      rw [addrLt_irrefl] at hlt
      exact absurd hlt (by simp)
    · exact hle
  have hwfx : f.pfx.addr.width = x.pfx.addr.width := by rw [hfxaddr]
  have hhfx : f.pfx.hostBits ≤ x.pfx.hostBits := by
    unfold Cidr.hostBits
    rw [hwfx]
    omega
  have hfle := le_lastAddr_of_contains hmf hcf
  have hxlast := lastAddrInCidr_eq hmx
  have hxis6 : x.pfx.addr.is6 = a.is6 := by rw [← hfxaddr]; exact hff
  have hlt : x.pfx.addr.val + 2 ^ x.pfx.hostBits - 1 < a.val := by
    rw [hxlast] at hbreak
    simp only [addrLt, hxis6] at hbreak
    rcases (Bool.or_eq_true ..).mp hbreak with h1 | h2
    · rcases (Bool.and_eq_true ..).mp h1 with ⟨hna, hai⟩
      rw [hai] at hna
      simp at hna
    · rcases (Bool.and_eq_true ..).mp h2 with ⟨-, hlt2⟩
      exact of_decide_eq_true hlt2
  have hpow : 2 ^ f.pfx.hostBits ≤ 2 ^ x.pfx.hostBits :=
    Nat.pow_le_pow_right (by omega) hhfx
  have hfv : f.pfx.addr.val = x.pfx.addr.val := by rw [hfxaddr]
  have hpos : (1 : Nat) ≤ 2 ^ f.pfx.hostBits := Nat.one_le_two_pow
  omega


/-- Characterization of the optimized backward scan with early break:
under the descending sort order, with masked entries, and with an
accumulator that is either empty or a containing match sorted above
all remaining entries, the scan returns the accumulator or a
containing entry, its bit count dominates every containing entry of
the list, and the accumulator's bit count never decreases. -/
theorem scanBack_spec (a : NAddr) :
    ∀ (rl : List CidrEntry) (best : Option CidrEntry),
    rl.Pairwise (fun u v => entrySortedLe v u) →
    (∀ e ∈ rl, e.pfx.Masked) →
    (best = none ∨ ∃ b, best = some b ∧ b.pfx.Masked ∧
      cidrContains b.pfx a = true ∧ ∀ e ∈ rl, entrySortedLe e b) →
    ((scanBack a rl best = best ∨
      ∃ e, scanBack a rl best = some e ∧ e ∈ rl ∧ cidrContains e.pfx a = true) ∧
    (∀ f ∈ rl, cidrContains f.pfx a = true →
      (f.pfx.bits : Int) ≤ scanFwd.bestBitsOf (scanBack a rl best)) ∧
    scanFwd.bestBitsOf best ≤ scanFwd.bestBitsOf (scanBack a rl best)) := by
  intro rl
  induction rl with
  | nil =>
    intro best hsort hmask hbest
    exact ⟨Or.inl rfl, by simp, le_refl _⟩
  | cons e rest ih =>
    intro best hsort hmask hbest
    rw [List.pairwise_cons] at hsort
    obtain ⟨hhead, hsrest⟩ := hsort
    have hme : e.pfx.Masked := hmask e (List.mem_cons_self ..)
    have hmrest : ∀ f ∈ rest, f.pfx.Masked :=
      fun f hf => hmask f (List.mem_cons_of_mem _ hf)
    by_cases hupd : (cidrContains e.pfx a &&
        decide (scanFwd.bestBitsOf best < (e.pfx.bits : Int))) = true
    · rcases (Bool.and_eq_true ..).mp hupd with ⟨hce, hbits⟩
      have hnolast : addrLt (lastAddrInCidr e.pfx) a = false :=
        not_lastAddr_lt_of_contains hme hce
      have hstep : scanBack a (e :: rest) best = scanBack a rest (some e) := by
        simp only [scanBack, hupd, hnolast]
        rfl
      have hbest' : (some e : Option CidrEntry) = none ∨
          ∃ b, (some e : Option CidrEntry) = some b ∧ b.pfx.Masked ∧
            cidrContains b.pfx a = true ∧ ∀ f ∈ rest, entrySortedLe f b :=
        Or.inr ⟨e, rfl, hme, hce, fun f hf => hhead f hf⟩
      obtain ⟨ih1, ih2, ih3⟩ := ih (some e) hsrest hmrest hbest'
      refine ⟨?_, ?_, ?_⟩
      · rw [hstep]
        rcases ih1 with h1 | ⟨e', he', hmem, hcont⟩
        · exact Or.inr ⟨e, h1, List.mem_cons_self .., hce⟩
        · exact Or.inr ⟨e', he', List.mem_cons_of_mem _ hmem, hcont⟩
      · intro f hf hcf
        rw [hstep]
        rcases List.mem_cons.mp hf with rfl | hmem
        · exact le_trans (by simp [scanFwd.bestBitsOf]) ih3
        · exact ih2 f hmem hcf
      · rw [hstep]
        refine le_trans ?_ ih3
        simp only [scanFwd.bestBitsOf]
        exact le_of_lt (of_decide_eq_true hbits)
    · have hbb : (if cidrContains e.pfx a &&
          decide (scanFwd.bestBitsOf best < (e.pfx.bits : Int))
          then some e else best) = best := if_neg (by simp_all)
      by_cases hbrk : (best.isSome && addrLt (lastAddrInCidr e.pfx) a) = true
      · rcases (Bool.and_eq_true ..).mp hbrk with ⟨hsome, hlast⟩
        have hstep : scanBack a (e :: rest) best = best := by
          simp only [scanBack, hbb]
          rw [if_pos hbrk]
        have hnce : cidrContains e.pfx a = false := by
          by_contra hc
          simp only [Bool.not_eq_false] at hc
          rw [not_lastAddr_lt_of_contains hme hc] at hlast
          exact absurd hlast (by simp)
        rcases hbest with rfl | ⟨b, rfl, hmb, hcb, hsle⟩
        · simp at hsome
        · refine ⟨Or.inl hstep, ?_, by rw [hstep]⟩
          intro f hf hcf
          rw [hstep]
          rcases List.mem_cons.mp hf with rfl | hmem
          · rw [hcf] at hnce
            exact absurd hnce (by simp)
          · have hble := breakLemma (hmask f (List.mem_cons_of_mem _ hmem)) hme hmb
              hcf hcb (hhead f hmem) (hsle e (List.mem_cons_self ..)) hlast
            simp only [scanFwd.bestBitsOf]
            exact_mod_cast hble
      · have hstep : scanBack a (e :: rest) best = scanBack a rest best := by
          simp only [scanBack, hbb]
          rw [if_neg hbrk]
        have hbest' : best = none ∨ ∃ b, best = some b ∧ b.pfx.Masked ∧
            cidrContains b.pfx a = true ∧ ∀ f ∈ rest, entrySortedLe f b := by
          rcases hbest with rfl | ⟨b, rfl, hmb, hcb, hsle⟩
          · exact Or.inl rfl
          · exact Or.inr ⟨b, rfl, hmb, hcb,
              fun f hf => hsle f (List.mem_cons_of_mem _ hf)⟩
        obtain ⟨ih1, ih2, ih3⟩ := ih best hsrest hmrest hbest'
        refine ⟨?_, ?_, ?_⟩
        · rw [hstep]
          rcases ih1 with h1 | ⟨e', he', hmem, hcont⟩
          · exact Or.inl h1
          · exact Or.inr ⟨e', he', List.mem_cons_of_mem _ hmem, hcont⟩
        · intro f hf hcf
          rw [hstep]
          rcases List.mem_cons.mp hf with rfl | hmem
          · have hnlt : ¬ (scanFwd.bestBitsOf best < (f.pfx.bits : Int)) := by
              intro hlt
              exact hupd ((Bool.and_eq_true ..).mpr ⟨hcf, decide_eq_true hlt⟩)
            exact le_trans (not_lt.mp hnlt) ih3
          · exact ih2 f hmem hcf
        · rw [hstep]
          exact ih3


/-- In an ascending-sorted list, an element whose start address is not
above the target lies in the takeWhile prefix of the binary search
predicate. -/
theorem mem_takeWhile_sorted {l : List CidrEntry} (hsort : l.Pairwise entrySortedLe)
    {a : NAddr} {m : CidrEntry} (hm : m ∈ l)
    (hpred : addrLt a m.pfx.addr = false) :
    m ∈ l.takeWhile (fun e => !addrLt a e.pfx.addr) := by
  induction l with
  | nil => cases hm
  | cons e rest ih =>
    rw [List.pairwise_cons] at hsort
    obtain ⟨hhead, hsrest⟩ := hsort
    rcases List.mem_cons.mp hm with rfl | hmem
    · rw [List.takeWhile_cons]
      simp only [hpred, Bool.not_false, if_true]
      exact List.mem_cons_self ..
    · have hpe : addrLt a e.pfx.addr = false := by
        have hle := entrySortedLe_addrLeP (hhead m hmem)
        by_contra hlt
        simp only [Bool.not_eq_false] at hlt
        have hcontr : addrLt a m.pfx.addr = true := by
          rcases hle with h | h
          · exact addrLt_trans hlt h
          · rw [← h]
            exact hlt
        rw [hcontr] at hpred
        exact absurd hpred (by simp)
      rw [List.takeWhile_cons]
      simp only [hpe, Bool.not_false, if_true]
      exact List.mem_cons_of_mem _ (ih hsrest hmem)

/-- In a list of pairwise distinct prefixes, two members with the same
prefix are the same entry. -/
theorem pairwise_ne_mem_eq {l : List CidrEntry}
    (hdist : l.Pairwise (fun u v => u.pfx ≠ v.pfx)) {x y : CidrEntry}
    (hx : x ∈ l) (hy : y ∈ l) (hpfx : x.pfx = y.pfx) : x = y := by
  induction l with
  | nil => cases hx
  | cons e rest ih =>
    rw [List.pairwise_cons] at hdist
    obtain ⟨hhead, hrest⟩ := hdist
    rcases List.mem_cons.mp hx with rfl | hxm
    · rcases List.mem_cons.mp hy with rfl | hym
      · rfl
      · exact absurd hpfx (hhead y hym)
    · rcases List.mem_cons.mp hy with rfl | hym
      · exact absurd hpfx.symm (hhead x hxm)
      · exact ih hrest hxm hym

/-- C10 (amended): over any set of CIDR rows sorted by start address
ascending and bit length descending, whose prefixes are masked
(address equals the network start) and pairwise distinct, the naive
linear-scan findInCIDR and the optimized findInCIDR (IPSet containment
check, binary search, backward scan with early break) return the same
result. -/
theorem findInCIDREquivalence (l : List CidrEntry) (a : NAddr)
    (hsort : l.Pairwise entrySortedLe)
    (hmask : ∀ e ∈ l, e.pfx.Masked)
    (hdist : l.Pairwise (fun u v => u.pfx ≠ v.pfx)) :
    findInCIDRGo l a = findInCIDROpt l a := by
  have htake : l.take (sortSearchIdx l a)
      = l.takeWhile (fun e => !addrLt a e.pfx.addr) :=
    (List.prefix_iff_eq_take.mp (List.takeWhile_prefix _)).symm
  have hsub : ∀ e ∈ l.takeWhile (fun e => !addrLt a e.pfx.addr), e ∈ l :=
    fun e he => (List.takeWhile_prefix _).sublist.subset he
  by_cases hex : ∃ m ∈ l, cidrContains m.pfx a = true
  · obtain ⟨m, hm, hcm⟩ := hex
    have hne : l.isEmpty = false := by
      cases l
      · cases hm
      · rfl
    have hany : (l.any fun e => cidrContains e.pfx a) = true :=
      List.any_eq_true.mpr ⟨m, hm, hcm⟩
    obtain ⟨n1, n2, -⟩ := scanFwd_spec a l none
    rcases n1 with hnone | ⟨en, hen, henm, henc⟩
    · exfalso
      have hb := n2 m hm hcm
      rw [hnone] at hb
      simp only [scanFwd.bestBitsOf] at hb
      omega
    have hsortrl : ((l.takeWhile (fun e => !addrLt a e.pfx.addr)).reverse).Pairwise
        (fun u v => entrySortedLe v u) := by
      rw [List.pairwise_reverse]
      exact List.Pairwise.sublist (List.takeWhile_prefix _).sublist hsort
    have hmaskrl : ∀ e ∈ (l.takeWhile (fun e => !addrLt a e.pfx.addr)).reverse,
        e.pfx.Masked := by
      intro e he
      exact hmask e (hsub e (List.mem_reverse.mp he))
    obtain ⟨o1, o2, -⟩ := scanBack_spec a
      ((l.takeWhile (fun e => !addrLt a e.pfx.addr)).reverse) none
      hsortrl hmaskrl (Or.inl rfl)
    have hmrl : ∀ f ∈ l, cidrContains f.pfx a = true →
        f ∈ (l.takeWhile (fun e => !addrLt a e.pfx.addr)).reverse := by
      intro f hf hcf
      rw [List.mem_reverse]
      refine mem_takeWhile_sorted hsort hf ?_
      by_contra hlt
      simp only [Bool.not_eq_false] at hlt
      rw [not_contains_of_lt_start (hmask f hf) hlt] at hcf
      exact absurd hcf (by simp)
    rcases o1 with honone | ⟨eo, heo, heom, heoc⟩
    · exfalso
      have hb := o2 m (hmrl m hm hcm) hcm
      rw [honone] at hb
      simp only [scanFwd.bestBitsOf] at hb
      omega
    have heol : eo ∈ l := hsub eo (List.mem_reverse.mp heom)
    have h1 : en.pfx.bits ≤ eo.pfx.bits := by
      have hb := o2 en (hmrl en henm henc) henc
      rw [heo] at hb
      simp only [scanFwd.bestBitsOf] at hb
      exact_mod_cast hb
    have h2 : eo.pfx.bits ≤ en.pfx.bits := by
      have hb := n2 eo heol heoc
      rw [hen] at hb
      simp only [scanFwd.bestBitsOf] at hb
      exact_mod_cast hb
    have hpfxeq : en.pfx = eo.pfx :=
      contains_eq_of_bits_eq (hmask en henm) (hmask eo heol) henc heoc
        (le_antisymm h1 h2)
    have heq : en = eo := pairwise_ne_mem_eq hdist henm heol hpfxeq
    show scanFwd a l none = findInCIDROpt l a
    rw [hen, findInCIDROpt, if_neg (by simp [hne]), if_neg (by simp [hany]), htake,
      heo, heq]
  · have hnone : ∀ f ∈ l, cidrContains f.pfx a = false := by
      intro f hf
      by_contra hc
      simp only [Bool.not_eq_false] at hc
      exact hex ⟨f, hf, hc⟩
    obtain ⟨n1, -, -⟩ := scanFwd_spec a l none
    rcases n1 with h1 | ⟨e, -, hmem, hcont⟩
    · show scanFwd a l none = findInCIDROpt l a
      rw [h1, findInCIDROpt]
      cases hE : l.isEmpty
      · rw [if_neg (by simp [hE]), if_pos]
        simp only [Bool.not_eq_true']
        exact List.any_eq_false.mpr (by simpa using hnone)
      · rw [if_pos (by simp [hE])]
    · exact absurd hcont (by simp [hnone e hmem])

/-- Decidability of the sort order, needed to evaluate the side
conditions on concrete inputs. -/
instance : DecidableRel entrySortedLe := fun x y => by
  unfold entrySortedLe
  infer_instance

/-- Decidability of maskedness. -/
instance (p : Cidr) : Decidable p.Masked := by
  unfold Cidr.Masked
  infer_instance

/-- Two proxy-list rows for the same CIDR 10.0.0.0/24 (value
167772160 = 10*2^24) with different flag records, in an order that
satisfies the sort contract. -/
def dupRows : List CidrEntry :=
  [⟨⟨⟨false, 167772160⟩, 24⟩, { IsProxy := true, IsAnonymous := true }⟩,
   ⟨⟨⟨false, 167772160⟩, 24⟩, { IsVPN := true, IsAnonymous := true }⟩]

/-- C10 counterexample: on two rows with the same prefix but different
records (duplicate CIDR rows are kept by parse, and both orders of the
two rows satisfy the comparator, whose order is not strict on them),
the naive scan returns the first row and the optimized scan returns
the second, so the two lookups disagree even on a sorted, masked
input. -/
theorem findInCIDRCounterexample :
    List.Pairwise entrySortedLe dupRows ∧
    (∀ e ∈ dupRows, e.pfx.Masked) ∧
    (findInCIDRGo dupRows ⟨false, 167772160⟩).map (fun e => e.record)
      ≠ (findInCIDROpt dupRows ⟨false, 167772160⟩).map (fun e => e.record) := by
  refine ⟨?_, ?_, ?_⟩ <;> decide

/-- Witness for C10 on a concrete sorted, masked, duplicate-free list:
10.0.0.0/24 before 10.0.0.0/8, queried inside both. -/
theorem findInCIDREquivalence_witness :
    findInCIDRGo
        [⟨⟨⟨false, 167772160⟩, 24⟩, { IsProxy := true, IsAnonymous := true }⟩,
         ⟨⟨⟨false, 167772160⟩, 8⟩, { IsCDN := true }⟩]
        ⟨false, 167772165⟩
      = findInCIDROpt
        [⟨⟨⟨false, 167772160⟩, 24⟩, { IsProxy := true, IsAnonymous := true }⟩,
         ⟨⟨⟨false, 167772160⟩, 8⟩, { IsCDN := true }⟩]
        ⟨false, 167772165⟩ := by
  exact findInCIDREquivalence
    [⟨⟨⟨false, 167772160⟩, 24⟩, { IsProxy := true, IsAnonymous := true }⟩,
     ⟨⟨⟨false, 167772160⟩, 8⟩, { IsCDN := true }⟩]
    ⟨false, 167772165⟩ (by decide) (by decide) (by decide)

end MergedIP
